import Mathlib

/-! JIT-FKL: kernel-name construction, pipeline marshalling and the JIT kernel cache.

A shallow embedding of `src/jit_operation_executor_cache.h` and
`src/jit_operation_executor.h`.

* `std::string` is `String`, `std::vector<T>` is `List T`, `size_t` is `Nat`.
* Pointers (`void*`, `const IOps*`) are addresses, `Nat`.
* The device compiler (NVRTC) and the CUDA driver are external: their answers
  are read from an environment `Env`, and the calls the program issues are
  recorded in a `Driver` state that every stateful operation threads through.
* A C++ exception is the `Except.error` component of a result; the state that
  is returned next to it is the state at the point where the exception leaves
  the function.
-/

namespace fk

/-! ## Data model -/

/-- Modelled from the spec: the class `JIT_Operation_pp` is declared in
`src/jit_operation_pp.h`, which is not among the sources.  The spec describes it
as the operation descriptor `{typeName, dataPointer, byteSize}`, the data pointer
being a non-owning pointer to the caller's stage.  The constructor call
`JIT_Operation_pp(type, data, size)` is `JIT_Operation_pp.mk type data size`. -/
structure JIT_Operation_pp where
  typeName : String
  dataPointer : Nat
  byteSize : Nat
  deriving DecidableEq, Repr

/-- The accessor `getType()`. -/
def JIT_Operation_pp.getType (op : JIT_Operation_pp) : String := op.typeName

/-- The accessor `getData()`. -/
def JIT_Operation_pp.getData (op : JIT_Operation_pp) : Nat := op.dataPointer

/-- The value of `ActiveThreads`: three unsigned extents. -/
structure ActiveThreads where
  x : Nat
  y : Nat
  z : Nat
  deriving DecidableEq, Repr

/-- One stage instance `iOps` of the variadic pack `const IOps&... iOps`, seen
through what the code reads of it: `typeToString<IOps>()`, the address `&iOps`,
`sizeof(IOps)` and `getActiveThreads()`. -/
structure IOp where
  typeName : String
  address : Nat
  sizeOf : Nat
  activeThreads : ActiveThreads
  deriving DecidableEq, Repr

/-- The value `tDetails` returned by the external
`TransformDPP<PA, TFEN>::build_details(iOps...)`, with the two static properties
of its type that the executor uses: `TDPPDetails::TFI::ENABLED` and
`typeToString<TDPPDetails>()`.  `address` is `&tDetails`. -/
structure TDPPDetails where
  tfiEnabled : Bool
  typeName : String
  activeThreads : ActiveThreads
  threadDivisible : Bool
  address : Nat
  deriving DecidableEq, Repr

/-! ## `jit_internal`: helper functions for dynamic pipeline construction -/

namespace jit_internal

/-- The body of the `for` loop of `buildNameExpression`: `i` is the loop
counter, the list is `pipeline[i], pipeline[i+1], ...` and `size` is
`pipeline.size()`.  The loop body only runs for `i < size`, so the unsigned
`size - 1` does not wrap there. -/
def buildNameExpressionLoop (size : Nat) : Nat → List JIT_Operation_pp → String → String
  | _, [], ss => ss
  | i, op :: rest, ss =>
    let ss := ss ++ op.getType
    let ss := if i < size - 1 then ss ++ ", " else ss
    buildNameExpressionLoop size (i + 1) rest ss

/-- The function `jit_internal::buildNameExpression(kernelName, pipeline)`. -/
def buildNameExpression (kernelName : String) (pipeline : List JIT_Operation_pp) : String :=
  let ss := "&" ++ kernelName
  let ss := buildNameExpressionLoop pipeline.length 0 pipeline ss
  ss ++ ">"

/-- The function `jit_internal::buildKernelArguments(pipeline)`: a range-for
that pushes `op.getData()` for every `op`. -/
def buildKernelArguments (pipeline : List JIT_Operation_pp) : List Nat :=
  pipeline.foldl (fun args op => args ++ [op.getData]) []

/-- The function `jit_internal::buildOperationPipeline(iOps...)`: the fold
expression `(pipeline.emplace_back(typeToString<IOps>(), &iOps, sizeof(IOps)), ...)`
runs over the pack from left to right. -/
def buildOperationPipeline (iOps : List IOp) : List JIT_Operation_pp :=
  iOps.foldl
    (fun pipeline iOp => pipeline ++ [JIT_Operation_pp.mk iOp.typeName iOp.address iOp.sizeOf]) []

end jit_internal


/-! ## The external services: NVRTC and the CUDA driver -/

/-- A resolved `CUfunction`: the module it was resolved from and the lowered
name it was resolved by (`cuModuleGetFunction(&f, module, name)`). -/
structure CUfunc where
  module : Nat
  name : String
  deriving DecidableEq, Repr

/-- A `CUmodule` handle; `none` is `nullptr`. -/
abbrev CUmodule := Option Nat

/-- A `CUfunction` handle; `none` is `nullptr`. -/
abbrev CUfunction := Option CUfunc

/-- What NVRTC and the driver answer during one run of the `JitFkKernel`
constructor: the result code of every call (`0` is success) and the values the
calls hand back. -/
structure NvrtcRun where
  createProgram : Nat
  addNameExpression : Nat
  compileProgram : Nat
  getProgramLogSize : Nat
  logSize : Nat
  getProgramLog : Nat
  log : String
  getLoweredName : Nat
  loweredName : String
  getPTXSize : Nat
  getPTX : Nat
  moduleLoadData : Nat
  moduleGetFunction : Nat
  deriving Repr

/-- The environment: how the external services answer.  `nvrtc n src expr`
are the answers for the program created `n`-th, from source `src` with name
expression `expr`; `moduleUnload loaded m` is the result code of
`cuModuleUnload(m)` when the modules `loaded` are loaded. -/
structure Env where
  nvrtc : Nat → String → String → NvrtcRun
  nvrtcGetErrorString : Nat → String
  moduleUnload : List Nat → CUmodule → Nat
  cuInit : Nat
  cuDeviceGet : Nat
  cuCtxCreate : Nat
  cuCtxDestroy : Nat

/-- The exceptions of the program: the one raised by `gpuErrchk` on a result
code that is not success, and `std::runtime_error(what)`. -/
inductive JitError where
  | gpuError (code : Nat)
  | runtime_error (what : String)
  deriving DecidableEq, Repr

/-- The state of the external services, as far as the program's calls change
it: the name expressions of the programs created (`nvrtcCreateProgram`) and
compiled (`nvrtcCompileProgram`), the next fresh module handle, the modules
currently loaded, every `cuModuleUnload` call issued so far in order, and
whether the context exists. -/
structure Driver where
  programs : List String
  compiled : List String
  nextModule : Nat
  loaded : List Nat
  unloadCalls : List CUmodule
  context : Bool
  deriving DecidableEq, Repr

/-- The call `cuModuleUnload(m)`: the call is recorded, the module is no longer
loaded afterwards, and the result code is the environment's. -/
def cuModuleUnload (env : Env) (m : CUmodule) (d : Driver) : Nat × Driver :=
  (env.moduleUnload d.loaded m,
   { d with
     unloadCalls := d.unloadCalls ++ [m]
     loaded := match m with
       | some h => d.loaded.filter (fun l => l != h)
       | none => d.loaded })

/-! ## `JitFkKernel` -/

/-- The class `JitFkKernel`: its four data members. -/
structure JitFkKernel where
  m_module : CUmodule
  m_kernelFunc : CUfunction
  m_nameExpression : String
  m_includes : String
  deriving DecidableEq, Repr

namespace JitFkKernel

/-- The default member initialiser of `m_includes`. -/
def includes : String :=
  " \n                #include <fused_kernel/core/execution_model/executor_kernels.h>\n                #include <fused_kernel/algorithms/algorithms.h>\n                #include <fused_kernel/core/execution_model/data_parallel_patterns.h>\n            "

/-- The default constructor `JitFkKernel()`. -/
def default : JitFkKernel :=
  { m_module := none, m_kernelFunc := none, m_nameExpression := "", m_includes := includes }

/-- The constructor `JitFkKernel(kernelName, pipeline)`.  Every `gpuErrchk`
throws on a result code that is not success; the `if (log_size > 1)` block
throws `std::runtime_error`.  When the constructor throws, no object exists and
no destructor runs. -/
def construct (env : Env) (kernelName : String) (pipeline : List JIT_Operation_pp)
    (d : Driver) : Except JitError JitFkKernel × Driver :=
  let m_nameExpression := jit_internal.buildNameExpression kernelName pipeline
  let run := env.nvrtc d.programs.length includes m_nameExpression
  let d := { d with programs := d.programs ++ [m_nameExpression] }
  if run.createProgram ≠ 0 then (.error (.gpuError run.createProgram), d) else
  if run.addNameExpression ≠ 0 then (.error (.gpuError run.addNameExpression), d) else
  let compile_result := run.compileProgram
  let d := { d with compiled := d.compiled ++ [m_nameExpression] }
  if run.getProgramLogSize ≠ 0 then (.error (.gpuError run.getProgramLogSize), d) else
  let log_size := run.logSize
  if log_size > 1 then
    let error_str := env.nvrtcGetErrorString compile_result
    if run.getProgramLog ≠ 0 then (.error (.gpuError run.getProgramLog), d) else
    let nvrtc_log := "NVRTC Error: " ++ error_str ++ "\n" ++ "NVRTC Log:\n" ++ run.log ++ "\n"
    (.error (.runtime_error nvrtc_log), d)
  else
  if run.getLoweredName ≠ 0 then (.error (.gpuError run.getLoweredName), d) else
  let mangled_name := run.loweredName
  if run.getPTXSize ≠ 0 then (.error (.gpuError run.getPTXSize), d) else
  if run.getPTX ≠ 0 then (.error (.gpuError run.getPTX), d) else
  if run.moduleLoadData ≠ 0 then (.error (.gpuError run.moduleLoadData), d) else
  let m := d.nextModule
  let d := { d with nextModule := m + 1, loaded := d.loaded ++ [m] }
  if run.moduleGetFunction ≠ 0 then (.error (.gpuError run.moduleGetFunction), d) else
  (.ok { m_module := some m
         m_kernelFunc := some { module := m, name := mangled_name }
         m_nameExpression := m_nameExpression
         m_includes := includes }, d)

/-- The copy assignment operator, for `this != &other`: the handles are copied,
the module is not duplicated. -/
def copyAssign (_self other : JitFkKernel) : JitFkKernel :=
  { m_nameExpression := other.m_nameExpression
    m_includes := other.m_includes
    m_module := other.m_module
    m_kernelFunc := other.m_kernelFunc }

/-- The accessor `getKernelFunction()`. -/
def getKernelFunction (k : JitFkKernel) : CUfunction := k.m_kernelFunc

/-- The accessor `getNameExpression()`. -/
def getNameExpression (k : JitFkKernel) : String := k.m_nameExpression

/-- The destructor `~JitFkKernel()`: `gpuErrchk(cuModuleUnload(m_module))`. -/
def destroy (env : Env) (k : JitFkKernel) (d : Driver) : Except JitError Unit × Driver :=
  let r := cuModuleUnload env k.m_module d
  if r.1 ≠ 0 then (.error (.gpuError r.1), r.2) else (.ok (), r.2)

end JitFkKernel

/-! ## The free helper of the same name -/

/-- The free function `fk::buildNameExpression(pipeline)`: the stream starts
with `"&genericKernel<"`, the loop is the one of
`jit_internal::buildNameExpression`, statement for statement. -/
def buildNameExpression (pipeline : List JIT_Operation_pp) : String :=
  let ss := "&genericKernel<"
  let ss := jit_internal.buildNameExpressionLoop pipeline.length 0 pipeline ss
  ss ++ ">"

/-! ## `std::unordered_map<std::string, JitFkKernel>` -/

/-- The map as the list of its entries, keys pairwise different. -/
abbrev KernelMap := List (String × JitFkKernel)

/-- The lookup `m.find(key)`; `none` is `m.end()`. -/
def KernelMap.find : KernelMap → String → Option JitFkKernel
  | [], _ => none
  | (k, v) :: rest, key => if k = key then some v else KernelMap.find rest key

/-- The first half of `m[key] = v`: `operator[]` inserts a default-constructed
value when the key is absent. -/
def KernelMap.subscript (m : KernelMap) (key : String) : KernelMap :=
  match KernelMap.find m key with
  | some _ => m
  | none => m ++ [(key, JitFkKernel.default)]

/-- The second half of `m[key] = v`: the copy assignment to the slot of `key`. -/
def KernelMap.assign : KernelMap → String → JitFkKernel → KernelMap
  | [], _, _ => []
  | (k, w) :: rest, key, v =>
    if k = key then (k, w.copyAssign v) :: rest else (k, w) :: KernelMap.assign rest key v

/-! ## `JITExecutorCache` -/

/-- The class `JITExecutorCache`, reduced to the member the operations below
use (`m_device`, `m_context` and `m_includes` are written once, by the
constructor). -/
structure JITExecutorCache where
  m_kernelCache : KernelMap
  deriving DecidableEq, Repr

namespace JITExecutorCache

/-- The constructor `JITExecutorCache()`: `cuInit`, `cuDeviceGet`,
`cuCtxCreate`, each under `gpuErrchk`; the map starts empty. -/
def new (env : Env) (d : Driver) : Except JitError JITExecutorCache × Driver :=
  if env.cuInit ≠ 0 then (.error (.gpuError env.cuInit), d) else
  if env.cuDeviceGet ≠ 0 then (.error (.gpuError env.cuDeviceGet), d) else
  if env.cuCtxCreate ≠ 0 then (.error (.gpuError env.cuCtxCreate), d) else
  (.ok { m_kernelCache := [] }, { d with context := true })

/-- The private member `addJITKernel(fkKernel)`:
`m_kernelCache[fkKernel.getNameExpression()] = fkKernel`. -/
def addJITKernel (c : JITExecutorCache) (fkKernel : JitFkKernel) : JITExecutorCache :=
  { m_kernelCache :=
      (c.m_kernelCache.subscript fkKernel.getNameExpression).assign
        fkKernel.getNameExpression fkKernel }

/-- The private member `hasJITKernel(kernelName)`. -/
def hasJITKernel (c : JITExecutorCache) (kernelName : String) : Bool :=
  (c.m_kernelCache.find kernelName).isSome

/-- The private member `getCUfunction(kernelNameWithDetails)`. -/
def getCUfunction (c : JITExecutorCache) (kernelNameWithDetails : String) :
    Except JitError CUfunction :=
  match c.m_kernelCache.find kernelNameWithDetails with
  | some k => .ok k.getKernelFunction
  | none => .error (.runtime_error ("JIT Kernel not found: " ++ kernelNameWithDetails))

/-- The member `addKernel(kernelName, pipeline)`.  The local `fkKernel` lives in
the block of the `if`: its destructor runs at the closing brace, after
`addJITKernel` and before `getCUfunction`.  An exception that leaves the
destructor ends the call without a value. -/
def addKernel (env : Env) (kernelName : String) (pipeline : List JIT_Operation_pp)
    (c : JITExecutorCache) (d : Driver) :
    Except JitError CUfunction × JITExecutorCache × Driver :=
  let completeKernelExpression := jit_internal.buildNameExpression kernelName pipeline
  if !c.hasJITKernel completeKernelExpression then
    match JitFkKernel.construct env kernelName pipeline d with
    | (.error e, d) => (.error e, c, d)
    | (.ok fkKernel, d) =>
      let c := c.addJITKernel fkKernel
      match fkKernel.destroy env d with
      | (.error e, d) => (.error e, c, d)
      | (.ok (), d) => (c.getCUfunction completeKernelExpression, c, d)
  else
    (c.getCUfunction completeKernelExpression, c, d)

/-- The destructors of the entries of the map, one after the other; an
exception that leaves one of them ends the teardown. -/
def destroyEntries (env : Env) : KernelMap → Driver → Except JitError Unit × Driver
  | [], d => (.ok (), d)
  | (_, k) :: rest, d =>
    match k.destroy env d with
    | (.error e, d) => (.error e, d)
    | (.ok (), d) => destroyEntries env rest d

/-- The destructor `~JITExecutorCache()`: the body destroys the context, then
the members are destroyed, `m_kernelCache` with every `JitFkKernel` in it. -/
def destroy (env : Env) (c : JITExecutorCache) (d : Driver) : Except JitError Unit × Driver :=
  if env.cuCtxDestroy ≠ 0 then (.error (.gpuError env.cuCtxDestroy), d) else
  destroyEntries env c.m_kernelCache { d with context := false }

/-- A sequence of `addKernel` calls, whatever each of them returns. -/
def addKernels (env : Env) :
    List (String × List JIT_Operation_pp) → JITExecutorCache × Driver → JITExecutorCache × Driver
  | [], s => s
  | (kernelName, pipeline) :: rest, s =>
    let r := addKernel env kernelName pipeline s.1 s.2
    addKernels env rest r.2

end JITExecutorCache

/-! ## The executor -/

namespace Executor

/-- The text `tfi` of `executeOperations_helper`. -/
def tfi (tDetails : TDPPDetails) : String :=
  if tDetails.tfiEnabled then "TF::ENABLED" else "TF::DISABLED"

/-- The text `threadDivisible` of `executeOperations_helper`. -/
def threadDivisible (tDetails : TDPPDetails) : String :=
  if tDetails.tfiEnabled then
    if !tDetails.threadDivisible then "false" else "true"
  else "true"

/-- The string `kernelNameWithDetails` of `executeOperations_helper`. -/
def kernelNameWithDetails (tDetails : TDPPDetails) : String :=
  let kernelName := "launchTransformDPP_Kernel<ParArch::GPU_NVIDIA, "
  kernelName ++ tfi tDetails ++ ", " ++ threadDivisible tDetails ++ ", " ++ tDetails.typeName ++ ", "

/-- The name expression that `addKernel` computes for the executor's request:
the cache key, and the entry point the constructor registers with the
compiler. -/
def signature (tDetails : TDPPDetails) (iOps : List IOp) : String :=
  jit_internal.buildNameExpression (kernelNameWithDetails tDetails)
    (jit_internal.buildOperationPipeline iOps)

/-- The argument vector `args` of `executeOperations_helper` at the launch:
`buildKernelArguments(pipeline)` with `&tDetails` inserted at `args.begin()`. -/
def launchArguments (tDetails : TDPPDetails) (iOps : List IOp) : List Nat :=
  let pipeline := jit_internal.buildOperationPipeline iOps
  let args := jit_internal.buildKernelArguments pipeline
  tDetails.address :: args

/-- The call `JITExecutorCache::getInstance().addKernel(kernelNameWithDetails, pipeline)`
of `executeOperations_helper`. -/
def kernelFunc (env : Env) (tDetails : TDPPDetails) (iOps : List IOp)
    (c : JITExecutorCache) (d : Driver) :
    Except JitError CUfunction × JITExecutorCache × Driver :=
  JITExecutorCache.addKernel env (kernelNameWithDetails tDetails)
    (jit_internal.buildOperationPipeline iOps) c d

end Executor

/-! ## The launch geometry -/

/-- A finite, non-negative value of the type `float` (IEEE-754 binary32): the
dyadic number `num / 2 ^ shift`. -/
structure Float32 where
  num : Nat
  shift : Nat
  deriving DecidableEq, Repr

/-- The position of the leading bit of `n`, by halving: the largest `e` with
`2 ^ e ≤ n` for `n > 0`.  Called as `bitLog2 n n`, the first argument bounds
the number of halvings. -/
def bitLog2 : Nat → Nat → Nat
  | 0, _ => 0
  | bound + 1, n => if 2 ≤ n then bitLog2 bound (n / 2) + 1 else 0

/-- Rounding to nearest, ties to even: `q` is the quotient truncated, `rem` the
remainder and `den` the divisor. -/
def roundHalfEven (q rem den : Nat) : Nat :=
  if 2 * rem > den ∨ (2 * rem = den ∧ q % 2 = 1) then q + 1 else q

/-- The `float` nearest to the quotient `a / b` of two naturals, `b > 0`: 24
significant bits, round to nearest, ties to even.  Quotients of two values
below `2 ^ 33` are in the normal range of the format, neither overflow nor
subnormal values occur. -/
def Float32.roundQuotient (a b : Nat) : Float32 :=
  if a = 0 then { num := 0, shift := 0 }
  else if b * 2 ^ 23 ≤ a then
    let s := bitLog2 (a / b) (a / b) - 23
    let den := b * 2 ^ s
    { num := roundHalfEven (a / den) (a % den) den * 2 ^ s, shift := 0 }
  else
    let k0 := 23 + bitLog2 b b - bitLog2 a a
    let k := if b * 2 ^ 23 ≤ a * 2 ^ k0 then k0 else k0 + 1
    { num := roundHalfEven (a * 2 ^ k / b) (a * 2 ^ k % b) b, shift := k }

/-- The conversion of an unsigned integer to `float`, as in
`static_cast<float>(block.x)` and in the promotion of `activeThreads.x` in
`activeThreads.x / static_cast<float>(block.x)`. -/
def Float32.ofUInt (n : Nat) : Float32 := Float32.roundQuotient n 1

/-- The division of two `float` values, the divisor not zero. -/
def Float32.div (x y : Float32) : Float32 :=
  Float32.roundQuotient (x.num * 2 ^ y.shift) (y.num * 2 ^ x.shift)

/-- The function `ceil` on a `float`; the result is an integer. -/
def Float32.ceil (v : Float32) : Nat := (v.num + 2 ^ v.shift - 1) / 2 ^ v.shift

/-- The value of a `dim3`. -/
structure dim3 where
  x : Nat
  y : Nat
  z : Nat
  deriving DecidableEq, Repr

/-- The value of a `CtxDim3`, the result type of the external
`getDefaultBlockSize`. -/
structure CtxDim3 where
  x : Nat
  y : Nat
  z : Nat
  deriving DecidableEq, Repr

namespace Executor

/-- The variable `activeThreads` of `executeOperations_helper`: the extents of
the thread details when `TDPPDetails::TFI::ENABLED`, those of the first stage
(`get<0>(iOps...)`) otherwise; an empty pack has no first stage. -/
def activeThreads (tDetails : TDPPDetails) (iOps : List IOp) : Option ActiveThreads :=
  if tDetails.tfiEnabled then some tDetails.activeThreads
  else iOps.head?.map IOp.activeThreads

/-- One component of `grid`:
`static_cast<uint>(ceil(extent / static_cast<float>(blockDim)))`.  There is no
value when the block dimension is zero (the quotient is not finite) or the
result does not fit 32 bits (the conversion is undefined). -/
def gridExtent (extent blockDim : Nat) : Option Nat :=
  if blockDim = 0 then none
  else
    let c := Float32.ceil (Float32.div (Float32.ofUInt extent) (Float32.ofUInt blockDim))
    if c < 2 ^ 32 then some c else none

/-- The pair `(grid, block)` of `executeOperations_helper`, the block size
heuristic `getDefaultBlockSize` being external. -/
def launchDimensions (getDefaultBlockSize : Nat → Nat → CtxDim3) (tDetails : TDPPDetails)
    (iOps : List IOp) : Option (dim3 × dim3) :=
  match activeThreads tDetails iOps with
  | none => none
  | some activeThreads =>
    let ctx_block := getDefaultBlockSize activeThreads.x activeThreads.y
    let block : dim3 := { x := ctx_block.x, y := ctx_block.y, z := 1 }
    match gridExtent activeThreads.x block.x, gridExtent activeThreads.y block.y with
    | some gx, some gy => some ({ x := gx, y := gy, z := activeThreads.z }, block)
    | _, _ => none

end Executor

/-! ## Well-formed type names -/

/-- The scan of a type name from nesting depth `depth`: the angle brackets
are balanced and every comma is inside a pair of them. -/
def wellNestedFrom : Nat → List Char → Bool
  | depth, [] => depth == 0
  | depth, ch :: cs =>
    if ch = '<' then wellNestedFrom (depth + 1) cs
    else if ch = '>' then
      match depth with
      | 0 => false
      | n + 1 => wellNestedFrom n cs
    else if ch = ',' then depth != 0 && wellNestedFrom depth cs
    else wellNestedFrom depth cs

/-- A type name as `typeToString` produces it for a C++ type, such as
`fk::Read<fk::PerThreadRead<fk::_1D, float>>`: not empty, angle brackets
balanced, commas only between template arguments. -/
def wellNested (s : String) : Bool :=
  s.data != [] && wellNestedFrom 0 s.data

/-! ## A concrete scenario: the pipeline read, multiply, add, write -/

namespace Scenario

/-- The answers of a compile that succeeds with an empty log (the log size
counts the terminating zero). -/
def quietRun : NvrtcRun :=
  { createProgram := 0, addNameExpression := 0, compileProgram := 0, getProgramLogSize := 0,
    logSize := 1, getProgramLog := 0, log := "", getLoweredName := 0,
    loweredName := "_Z25launchTransformDPP_Kernel", getPTXSize := 0, getPTX := 0,
    moduleLoadData := 0, moduleGetFunction := 0 }

/-- The answers of a compile that succeeds (`NVRTC_SUCCESS`) and leaves a
warning in the log. -/
def warningRun : NvrtcRun :=
  { quietRun with logSize := 41, log := "warning: variable was never referenced\n" }

/-- The answers of a compile that fails (`NVRTC_ERROR_COMPILATION`) with a
diagnostic in the log. -/
def failingRun : NvrtcRun :=
  { quietRun with compileProgram := 6, logSize := 34, log := "error: identifier is undefined\n" }

/-- The result strings of `nvrtcGetErrorString`. -/
def errorString (code : Nat) : String :=
  if code = 0 then "NVRTC_SUCCESS" else "NVRTC_ERROR_COMPILATION"

/-- Every compile succeeds quietly, every driver call succeeds. -/
def quietEnv : Env :=
  { nvrtc := fun _ _ _ => quietRun, nvrtcGetErrorString := errorString,
    moduleUnload := fun _ _ => 0, cuInit := 0, cuDeviceGet := 0, cuCtxCreate := 0,
    cuCtxDestroy := 0 }

/-- Every compile succeeds with a warning. -/
def warningEnv : Env := { quietEnv with nvrtc := fun _ _ _ => warningRun }

/-- Every compile fails. -/
def failingEnv : Env := { quietEnv with nvrtc := fun _ _ _ => failingRun }

/-- The services before the first call, the context created. -/
def freshDriver : Driver :=
  { programs := [], compiled := [], nextModule := 0, loaded := [], unloadCalls := [],
    context := true }

/-- The cache right after its construction. -/
def emptyCache : JITExecutorCache := { m_kernelCache := [] }

/-- The four stages of the test pipeline, 256 elements. -/
def readOp : IOp :=
  { typeName := "fk::Read<fk::PerThreadRead<fk::_1D, float>>", address := 4096, sizeOf := 24,
    activeThreads := { x := 256, y := 1, z := 1 } }

def mulOp : IOp :=
  { typeName := "fk::Binary<fk::Mul<float, float, float>>", address := 4120, sizeOf := 4,
    activeThreads := { x := 1, y := 1, z := 1 } }

def addOp : IOp :=
  { typeName := "fk::Binary<fk::Add<float, float, float>>", address := 4124, sizeOf := 4,
    activeThreads := { x := 1, y := 1, z := 1 } }

def writeOp : IOp :=
  { typeName := "fk::Write<fk::PerThreadWrite<fk::_1D, float>>", address := 4128, sizeOf := 24,
    activeThreads := { x := 256, y := 1, z := 1 } }

/-- The same stage types at other addresses (a second launch). -/
def relocate (iOp : IOp) : IOp := { iOp with address := iOp.address + 8192 }

def stages : List IOp := [readOp, mulOp, addOp, writeOp]

def stagesAgain : List IOp := stages.map relocate

/-- Thread details of the disabled mode. -/
def details : TDPPDetails :=
  { tfiEnabled := false, typeName := "fk::TransformDPPDetails<fk::TFInfo<float, float, false>>",
    activeThreads := { x := 256, y := 1, z := 1 }, threadDivisible := true, address := 512 }

/-- Thread details of the enabled mode, the width divisible by the elements
per thread. -/
def fusedDivisible : TDPPDetails :=
  { tfiEnabled := true, typeName := "fk::TransformDPPDetails<fk::TFInfo<float, float, true>>",
    activeThreads := { x := 64, y := 1, z := 1 }, threadDivisible := true, address := 512 }

/-- Thread details of the enabled mode, the width not divisible. -/
def fusedNotDivisible : TDPPDetails :=
  { fusedDivisible with activeThreads := { x := 65, y := 1, z := 1 }, threadDivisible := false }

/-- The enabled mode again, for a second launch: other extents, another
address, the width divisible as before. -/
def fusedDivisibleAgain : TDPPDetails :=
  { fusedDivisible with activeThreads := { x := 128, y := 1, z := 1 }, address := 1024 }

def pipeline : List JIT_Operation_pp := jit_internal.buildOperationPipeline stages

def pipelineAgain : List JIT_Operation_pp := jit_internal.buildOperationPipeline stagesAgain

/-- A block size heuristic: 256 by 1 threads, whatever the extents. -/
def blockSize (_x _y : Nat) : CtxDim3 := { x := 256, y := 1, z := 1 }

/-- The reading stage over `2 ^ 31 + 1` elements. -/
def wideReadOp : IOp := { readOp with activeThreads := { x := 2147483649, y := 1, z := 1 } }

def wideStages : List IOp := [wideReadOp, mulOp, addOp, writeOp]

end Scenario

/-! ## Helper lemmas on strings -/

theorem intercalate_go_append (a b s : String) (l : List String) :
    String.intercalate.go (a ++ b) s l = a ++ String.intercalate.go b s l := by
  induction l generalizing b with
  | nil => simp [String.intercalate.go]
  | cons x xs ih =>
    simp only [String.intercalate.go]
    rw [String.append_assoc, String.append_assoc, ih, String.append_assoc]

theorem intercalate_cons_cons (s t u : String) (l : List String) :
    s.intercalate (t :: u :: l) = t ++ s ++ s.intercalate (u :: l) := by
  simp only [String.intercalate, String.intercalate.go]
  rw [String.append_assoc, String.append_assoc, intercalate_go_append,
    intercalate_go_append]

theorem intercalate_singleton (s t : String) : s.intercalate [t] = t := by
  simp [String.intercalate, String.intercalate.go]

namespace jit_internal

theorem buildNameExpressionLoop_eq (size : Nat) (rest : List JIT_Operation_pp) :
    ∀ (i : Nat) (ss : String), i + rest.length = size →
      buildNameExpressionLoop size i rest ss
        = ss ++ ", ".intercalate (rest.map JIT_Operation_pp.getType) := by
  induction rest with
  | nil => intro i ss _; simp [buildNameExpressionLoop, String.intercalate]
  | cons op rest ih =>
    intro i ss h
    cases rest with
    | nil =>
      have hi : ¬ i < size - 1 := by simp at h; omega
      simp [buildNameExpressionLoop, hi, intercalate_singleton]
    | cons op2 rest2 =>
      have hi : i < size - 1 := by simp at h; omega
      have h2 : (i + 1) + (op2 :: rest2).length = size := by simp at h ⊢; omega
      simp only [buildNameExpressionLoop, hi, if_true]
      have := ih (i + 1) (ss ++ op.getType ++ ", ") h2
      simp only [buildNameExpressionLoop, List.map] at this ⊢
      rw [this, intercalate_cons_cons]
      simp [String.append_assoc]

theorem buildNameExpression_eq (kernelName : String) (pipeline : List JIT_Operation_pp) :
    buildNameExpression kernelName pipeline
      = "&" ++ kernelName ++ ", ".intercalate (pipeline.map JIT_Operation_pp.getType) ++ ">" := by
  simp only [buildNameExpression]
  rw [buildNameExpressionLoop_eq pipeline.length pipeline 0 _ (by simp)]

end jit_internal

/-! ## The pipeline builders as maps -/

namespace jit_internal

theorem foldl_push_eq_map {α β : Type} (f : α → β) (l : List α) (acc : List β) :
    l.foldl (fun a x => a ++ [f x]) acc = acc ++ l.map f := by
  induction l generalizing acc with
  | nil => simp
  | cons x xs ih => simp [List.foldl, ih]

theorem buildKernelArguments_eq_map (pipeline : List JIT_Operation_pp) :
    buildKernelArguments pipeline = pipeline.map JIT_Operation_pp.getData := by
  simp [buildKernelArguments, foldl_push_eq_map]

theorem buildOperationPipeline_eq_map (iOps : List IOp) :
    buildOperationPipeline iOps
      = iOps.map (fun iOp => JIT_Operation_pp.mk iOp.typeName iOp.address iOp.sizeOf) := by
  simp [buildOperationPipeline, foldl_push_eq_map]

theorem buildOperationPipeline_types (iOps : List IOp) :
    (buildOperationPipeline iOps).map JIT_Operation_pp.getType = iOps.map IOp.typeName := by
  simp [buildOperationPipeline_eq_map, JIT_Operation_pp.getType, Function.comp_def]

theorem buildNameExpression_congr (kernelName : String) (p q : List JIT_Operation_pp)
    (h : q.map JIT_Operation_pp.getType = p.map JIT_Operation_pp.getType) :
    buildNameExpression kernelName q = buildNameExpression kernelName p := by
  rw [buildNameExpression_eq, buildNameExpression_eq, h]

end jit_internal

/-! ## The map operations -/

theorem KernelMap.find_append_of_none (m : KernelMap) (key : String) (e : String × JitFkKernel)
    (h : KernelMap.find m key = none) :
    KernelMap.find (m ++ [e]) key = if e.1 = key then some e.2 else none := by
  induction m with
  | nil => obtain ⟨k, v⟩ := e; simp [KernelMap.find]
  | cons x xs ih =>
    obtain ⟨k, v⟩ := x
    by_cases hk : k = key
    · simp [KernelMap.find, hk] at h
    · simp only [KernelMap.find, hk, if_false] at h
      simpa [KernelMap.find, hk] using ih h

theorem KernelMap.find_append_of_some (m : KernelMap) (key : String) (e : String × JitFkKernel)
    (v : JitFkKernel) (h : KernelMap.find m key = some v) :
    KernelMap.find (m ++ [e]) key = some v := by
  induction m with
  | nil => simp [KernelMap.find] at h
  | cons x xs ih =>
    obtain ⟨k, w⟩ := x
    by_cases hk : k = key
    · simpa [KernelMap.find, hk] using h
    · simp only [KernelMap.find, hk, if_false] at h
      simpa [KernelMap.find, hk] using ih h

theorem KernelMap.find_assign_same (m : KernelMap) (key : String) (v w : JitFkKernel)
    (h : KernelMap.find m key = some w) :
    KernelMap.find (KernelMap.assign m key v) key = some v := by
  induction m with
  | nil => simp [KernelMap.find] at h
  | cons x xs ih =>
    obtain ⟨k, u⟩ := x
    by_cases hk : k = key
    · simp [KernelMap.assign, KernelMap.find, hk, JitFkKernel.copyAssign]
    · simp only [KernelMap.find, hk, if_false] at h
      simpa [KernelMap.assign, KernelMap.find, hk] using ih h

theorem KernelMap.find_assign_other (m : KernelMap) (key other : String) (v : JitFkKernel)
    (h : other ≠ key) :
    KernelMap.find (KernelMap.assign m key v) other = KernelMap.find m other := by
  induction m with
  | nil => simp [KernelMap.assign, KernelMap.find]
  | cons x xs ih =>
    obtain ⟨k, u⟩ := x
    by_cases hk : k = key
    · subst hk
      have hko : ¬ k = other := fun hh => h hh.symm
      simp [KernelMap.assign, KernelMap.find, hko]
    · by_cases hko : k = other
      · subst hko
        simp [KernelMap.assign, KernelMap.find, hk]
      · simp [KernelMap.assign, KernelMap.find, hk, hko, ih]

theorem KernelMap.find_subscript_same (m : KernelMap) (key : String) :
    ∃ w, KernelMap.find (KernelMap.subscript m key) key = some w := by
  unfold KernelMap.subscript
  cases h : KernelMap.find m key with
  | some w => exact ⟨w, h⟩
  | none => exact ⟨JitFkKernel.default, by simp [KernelMap.find_append_of_none m key _ h]⟩

theorem KernelMap.find_subscript_other (m : KernelMap) (key other : String) (h : other ≠ key) :
    KernelMap.find (KernelMap.subscript m key) other = KernelMap.find m other := by
  unfold KernelMap.subscript
  cases hk : KernelMap.find m key with
  | some w => rfl
  | none =>
    cases ho : KernelMap.find m other with
    | some u => exact KernelMap.find_append_of_some m other _ u ho
    | none =>
      rw [KernelMap.find_append_of_none m other _ ho]
      simp [Ne.symm h]

theorem KernelMap.assign_absent (m : KernelMap) (key : String) (v : JitFkKernel)
    (h : KernelMap.find m key = none) : KernelMap.assign m key v = m := by
  induction m with
  | nil => rfl
  | cons x xs ih =>
    obtain ⟨k, u⟩ := x
    by_cases hk : k = key
    · simp [KernelMap.find, hk] at h
    · simp only [KernelMap.find, hk, if_false] at h
      simp [KernelMap.assign, hk, ih h]

/-! ## The constructor and `addKernel` -/

theorem JitFkKernel.construct_ok (env : Env) (kernelName : String)
    (pipeline : List JIT_Operation_pp) (d d1 : Driver) (fk : JitFkKernel)
    (h : JitFkKernel.construct env kernelName pipeline d = (.ok fk, d1)) :
    fk.m_nameExpression = jit_internal.buildNameExpression kernelName pipeline
      ∧ fk.m_module = some d.nextModule
      ∧ (∃ n, fk.m_kernelFunc = some { module := d.nextModule, name := n })
      ∧ d1.loaded = d.loaded ++ [d.nextModule] := by
  unfold JitFkKernel.construct at h
  simp only at h
  iterate 9
    (split at h
     · first
       | cases h
       | (split at h <;> cases h))
  simp only [Prod.mk.injEq, Except.ok.injEq] at h
  obtain ⟨h1, h2⟩ := h
  subst h1 h2
  exact ⟨rfl, rfl, ⟨_, rfl⟩, rfl⟩

theorem JITExecutorCache.find_addJITKernel (c : JITExecutorCache) (fk : JitFkKernel) :
    (c.addJITKernel fk).m_kernelCache.find fk.getNameExpression = some fk := by
  obtain ⟨w, hw⟩ := KernelMap.find_subscript_same c.m_kernelCache fk.getNameExpression
  simp only [JITExecutorCache.addJITKernel]
  exact KernelMap.find_assign_same _ _ fk w hw

theorem JITExecutorCache.find_addJITKernel_other (c : JITExecutorCache) (fk : JitFkKernel)
    (key : String) (h : key ≠ fk.getNameExpression) :
    (c.addJITKernel fk).m_kernelCache.find key = c.m_kernelCache.find key := by
  simp only [JITExecutorCache.addJITKernel]
  rw [KernelMap.find_assign_other _ _ _ _ h, KernelMap.find_subscript_other _ _ _ h]

theorem JITExecutorCache.addKernel_hit (env : Env) (kernelName : String)
    (pipeline : List JIT_Operation_pp) (c : JITExecutorCache) (d : Driver) (v : JitFkKernel)
    (h : c.m_kernelCache.find (jit_internal.buildNameExpression kernelName pipeline) = some v) :
    JITExecutorCache.addKernel env kernelName pipeline c d = (.ok v.getKernelFunction, c, d) := by
  simp [JITExecutorCache.addKernel, JITExecutorCache.hasJITKernel,
    JITExecutorCache.getCUfunction, h]

theorem JITExecutorCache.addKernel_miss_error (env : Env) (kernelName : String)
    (pipeline : List JIT_Operation_pp) (c : JITExecutorCache) (d d1 : Driver) (e : JitError)
    (h : c.m_kernelCache.find (jit_internal.buildNameExpression kernelName pipeline) = none)
    (hc : JitFkKernel.construct env kernelName pipeline d = (.error e, d1)) :
    JITExecutorCache.addKernel env kernelName pipeline c d = (.error e, c, d1) := by
  simp [JITExecutorCache.addKernel, JITExecutorCache.hasJITKernel, h, hc]

theorem JITExecutorCache.addKernel_miss_ok (env : Env) (kernelName : String)
    (pipeline : List JIT_Operation_pp) (c : JITExecutorCache) (d d1 : Driver) (fk : JitFkKernel)
    (h : c.m_kernelCache.find (jit_internal.buildNameExpression kernelName pipeline) = none)
    (hc : JitFkKernel.construct env kernelName pipeline d = (.ok fk, d1)) :
    JITExecutorCache.addKernel env kernelName pipeline c d
      = match fk.destroy env d1 with
        | (.error e, d2) => (.error e, c.addJITKernel fk, d2)
        | (.ok (), d2) => (.ok fk.getKernelFunction, c.addJITKernel fk, d2) := by
  have hname := (JitFkKernel.construct_ok env kernelName pipeline d d1 fk hc).1
  have hfind := JITExecutorCache.find_addJITKernel c fk
  simp only [JitFkKernel.getNameExpression, hname] at hfind
  simp only [JITExecutorCache.addKernel, JITExecutorCache.hasJITKernel, h, hc,
    JITExecutorCache.getCUfunction, hfind]
  rcases hd : fk.destroy env d1 with ⟨_ | _, d2⟩ <;> simp

theorem JITExecutorCache.addKernel_find_preserved (env : Env) (kernelName : String)
    (pipeline : List JIT_Operation_pp) (c : JITExecutorCache) (d : Driver) (key : String)
    (v : JitFkKernel) (h : c.m_kernelCache.find key = some v) :
    (JITExecutorCache.addKernel env kernelName pipeline c d).2.1.m_kernelCache.find key
      = some v := by
  cases hk : c.m_kernelCache.find (jit_internal.buildNameExpression kernelName pipeline) with
  | some w => rw [JITExecutorCache.addKernel_hit env kernelName pipeline c d w hk]; exact h
  | none =>
    rcases hc : JitFkKernel.construct env kernelName pipeline d with ⟨e | fk, d1⟩
    · rw [JITExecutorCache.addKernel_miss_error env kernelName pipeline c d d1 e hk hc]; exact h
    · rw [JITExecutorCache.addKernel_miss_ok env kernelName pipeline c d d1 fk hk hc]
      have hname := (JitFkKernel.construct_ok env kernelName pipeline d d1 fk hc).1
      have hne : key ≠ fk.getNameExpression := by
        intro hh
        rw [hh, JitFkKernel.getNameExpression, hname, hk] at h
        exact Option.noConfusion h
      have := JITExecutorCache.find_addJITKernel_other c fk key hne
      rcases hd : fk.destroy env d1 with ⟨_ | _, d2⟩ <;> simp [this, h]

theorem JITExecutorCache.addKernel_ok_find (env : Env) (kernelName : String)
    (pipeline : List JIT_Operation_pp) (c : JITExecutorCache) (d : Driver) (f : CUfunction)
    (h : (JITExecutorCache.addKernel env kernelName pipeline c d).1 = .ok f) :
    ∃ v, (JITExecutorCache.addKernel env kernelName pipeline c d).2.1.m_kernelCache.find
          (jit_internal.buildNameExpression kernelName pipeline) = some v
      ∧ v.getKernelFunction = f := by
  cases hk : c.m_kernelCache.find (jit_internal.buildNameExpression kernelName pipeline) with
  | some w =>
    rw [JITExecutorCache.addKernel_hit env kernelName pipeline c d w hk] at h ⊢
    exact ⟨w, hk, by simpa using h⟩
  | none =>
    rcases hc : JitFkKernel.construct env kernelName pipeline d with ⟨e | fk, d1⟩
    · rw [JITExecutorCache.addKernel_miss_error env kernelName pipeline c d d1 e hk hc] at h
      simp at h
    · rw [JITExecutorCache.addKernel_miss_ok env kernelName pipeline c d d1 fk hk hc] at h ⊢
      have hname := (JitFkKernel.construct_ok env kernelName pipeline d d1 fk hc).1
      have hfind := JITExecutorCache.find_addJITKernel c fk
      simp only [JitFkKernel.getNameExpression, hname] at hfind
      rcases hd : fk.destroy env d1 with ⟨_ | _, d2⟩
      · simp [hd] at h
      · simp only [hd] at h ⊢
        exact ⟨fk, hfind, by simpa using h⟩

theorem JITExecutorCache.addKernels_find_preserved (env : Env)
    (calls : List (String × List JIT_Operation_pp)) (s : JITExecutorCache × Driver)
    (key : String) (v : JitFkKernel) (h : s.1.m_kernelCache.find key = some v) :
    (JITExecutorCache.addKernels env calls s).1.m_kernelCache.find key = some v := by
  induction calls generalizing s with
  | nil => exact h
  | cons call rest ih =>
    obtain ⟨kernelName, pipeline⟩ := call
    simp only [JITExecutorCache.addKernels]
    exact ih _ (JITExecutorCache.addKernel_find_preserved env kernelName pipeline s.1 s.2 key v h)

/-! ## What the constructor looks at, and what the end of the block unloads -/

theorem JitFkKernel.construct_throws_on_log (env : Env) (kernelName : String)
    (pipeline : List JIT_Operation_pp) (d : Driver)
    (h1 : (env.nvrtc d.programs.length JitFkKernel.includes
            (jit_internal.buildNameExpression kernelName pipeline)).createProgram = 0)
    (h2 : (env.nvrtc d.programs.length JitFkKernel.includes
            (jit_internal.buildNameExpression kernelName pipeline)).addNameExpression = 0)
    (h3 : (env.nvrtc d.programs.length JitFkKernel.includes
            (jit_internal.buildNameExpression kernelName pipeline)).getProgramLogSize = 0)
    (hlog : 1 < (env.nvrtc d.programs.length JitFkKernel.includes
            (jit_internal.buildNameExpression kernelName pipeline)).logSize) :
    ∃ e, (JitFkKernel.construct env kernelName pipeline d).1 = .error e := by
  unfold JitFkKernel.construct
  simp only [h1, h2, h3, hlog, ne_eq, not_true_eq_false, if_false, gt_iff_lt, if_true]
  split
  · exact ⟨_, rfl⟩
  · exact ⟨_, rfl⟩

theorem JitFkKernel.construct_ignores_compile_result (env : Env) (code : Nat)
    (kernelName : String) (pipeline : List JIT_Operation_pp) (d : Driver)
    (hlog : (env.nvrtc d.programs.length JitFkKernel.includes
            (jit_internal.buildNameExpression kernelName pipeline)).logSize ≤ 1) :
    JitFkKernel.construct
        { env with nvrtc := fun n s e => { env.nvrtc n s e with compileProgram := code } }
        kernelName pipeline d
      = JitFkKernel.construct env kernelName pipeline d := by
  have hlog' : ¬ (env.nvrtc d.programs.length JitFkKernel.includes
      (jit_internal.buildNameExpression kernelName pipeline)).logSize > 1 := by omega
  unfold JitFkKernel.construct
  simp only [hlog', if_false]

theorem JITExecutorCache.addKernel_miss_unloads (env : Env) (kernelName : String)
    (pipeline : List JIT_Operation_pp) (c : JITExecutorCache) (d : Driver) (f : CUfunction)
    (hmiss : c.hasJITKernel (jit_internal.buildNameExpression kernelName pipeline) = false)
    (hok : (JITExecutorCache.addKernel env kernelName pipeline c d).1 = .ok f) :
    ∃ fn, f = some fn
      ∧ fn.module ∉ (JITExecutorCache.addKernel env kernelName pipeline c d).2.2.loaded
      ∧ some fn.module ∈ (JITExecutorCache.addKernel env kernelName pipeline c d).2.2.unloadCalls
      ∧ ∃ k, (JITExecutorCache.addKernel env kernelName pipeline c d).2.1.m_kernelCache.find
            (jit_internal.buildNameExpression kernelName pipeline) = some k
          ∧ k.m_module = some fn.module := by
  have hfind : c.m_kernelCache.find (jit_internal.buildNameExpression kernelName pipeline)
      = none := by
    simpa [JITExecutorCache.hasJITKernel] using hmiss
  rcases hc : JitFkKernel.construct env kernelName pipeline d with ⟨e | fk, d1⟩
  · rw [JITExecutorCache.addKernel_miss_error env kernelName pipeline c d d1 e hfind hc] at hok
    simp at hok
  · obtain ⟨hname, hmod, ⟨n, hfun⟩, -⟩ :=
      JitFkKernel.construct_ok env kernelName pipeline d d1 fk hc
    have hentry := JITExecutorCache.find_addJITKernel c fk
    simp only [JitFkKernel.getNameExpression, hname] at hentry
    rw [JITExecutorCache.addKernel_miss_ok env kernelName pipeline c d d1 fk hfind hc] at hok ⊢
    by_cases hcode : (cuModuleUnload env fk.m_module d1).1 = 0
    · have hd : fk.destroy env d1 = (.ok (), (cuModuleUnload env fk.m_module d1).2) := by
        simp [JitFkKernel.destroy, hcode]
      simp only [hd] at hok ⊢
      refine ⟨{ module := d.nextModule, name := n }, ?_, ?_, ?_, fk, hentry, hmod⟩
      · rw [← hfun]; exact (Except.ok.inj hok).symm
      · simp [cuModuleUnload, hmod]
      · simp [cuModuleUnload, hmod]
    · have hd : fk.destroy env d1
          = (.error (.gpuError (cuModuleUnload env fk.m_module d1).1),
              (cuModuleUnload env fk.m_module d1).2) := by
        simp [JitFkKernel.destroy, hcode]
      simp [hd] at hok

/-! ## The signature as a list of characters -/

theorem wellNestedFrom_split (a : List Char) :
    ∀ (b r1 r2 : List Char) (depth : Nat),
      wellNestedFrom depth a = true → wellNestedFrom depth b = true →
      (r1 = [] ∨ ∃ t, r1 = ',' :: t) → (r2 = [] ∨ ∃ t, r2 = ',' :: t) →
      a ++ r1 = b ++ r2 → a = b ∧ r1 = r2 := by
  induction a with
  | nil =>
    intro b r1 r2 depth ha hb h1 h2 h
    have hd : depth = 0 := by simpa [wellNestedFrom] using ha
    subst hd
    cases b with
    | nil => exact ⟨rfl, by simpa using h⟩
    | cons ch b' =>
      exfalso
      rcases h1 with h1 | ⟨t, h1⟩
      · subst h1; simp at h
      · subst h1
        simp only [List.nil_append, List.cons_append, List.cons.injEq] at h
        obtain ⟨hch, -⟩ := h
        subst hch
        simp [wellNestedFrom] at hb
  | cons ch a' ih =>
    intro b r1 r2 depth ha hb h1 h2 h
    cases b with
    | nil =>
      exfalso
      have hd : depth = 0 := by simpa [wellNestedFrom] using hb
      subst hd
      rcases h2 with h2 | ⟨t, h2⟩
      · subst h2; simp at h
      · subst h2
        simp only [List.nil_append, List.cons_append, List.cons.injEq] at h
        obtain ⟨hch, -⟩ := h
        subst hch
        simp [wellNestedFrom] at ha
    | cons ch' b' =>
      simp only [List.cons_append, List.cons.injEq] at h
      obtain ⟨hch, h⟩ := h
      subst hch
      have step : ∃ depth', wellNestedFrom depth' a' = true ∧ wellNestedFrom depth' b' = true := by
        unfold wellNestedFrom at ha hb
        by_cases c1 : ch = '<'
        · simp only [c1, if_true] at ha hb
          exact ⟨_, ha, hb⟩
        · by_cases c2 : ch = '>'
          · simp only [c1, c2, if_true, if_false] at ha hb
            cases depth with
            | zero => simp at ha
            | succ n => exact ⟨n, ha, hb⟩
          · by_cases c3 : ch = ','
            · subst c3
              simp at ha hb
              exact ⟨_, ha.2, hb.2⟩
            · simp only [c1, c2, c3, if_false] at ha hb
              exact ⟨_, ha, hb⟩
      obtain ⟨depth', ha', hb'⟩ := step
      obtain ⟨e1, e2⟩ := ih b' r1 r2 depth' ha' hb' h1 h2 h
      exact ⟨by rw [e1], e2⟩

theorem intercalate_data_cons (a : String) (l : List String) :
    (", ".intercalate (a :: l)).data
      = a.data ++ (match l with
          | [] => []
          | b :: l' => ',' :: ' ' :: (", ".intercalate (b :: l')).data) := by
  cases l with
  | nil => simp [intercalate_singleton]
  | cons b l' => simp [intercalate_cons_cons, String.data_append]

theorem intercalate_injective (l1 : List String) :
    ∀ l2 : List String, (∀ x ∈ l1, wellNested x = true) → (∀ x ∈ l2, wellNested x = true) →
      (", ".intercalate l1).data = (", ".intercalate l2).data → l1 = l2 := by
  induction l1 with
  | nil =>
    intro l2 _ h2 h
    cases l2 with
    | nil => rfl
    | cons b l2' =>
      exfalso
      have hb := h2 b (List.mem_cons_self _ _)
      rw [intercalate_data_cons] at h
      simp only [String.intercalate] at h
      have : b.data = [] := (List.append_eq_nil.mp h.symm).1
      simp [wellNested, this] at hb
  | cons a l1' ih =>
    intro l2 h1 h2 h
    cases l2 with
    | nil =>
      exfalso
      have ha := h1 a (List.mem_cons_self _ _)
      rw [intercalate_data_cons] at h
      simp only [String.intercalate] at h
      have : a.data = [] := (List.append_eq_nil.mp h).1
      simp [wellNested, this] at ha
    | cons b l2' =>
      have ha := h1 a (List.mem_cons_self _ _)
      have hb := h2 b (List.mem_cons_self _ _)
      simp only [wellNested, Bool.and_eq_true] at ha hb
      rw [intercalate_data_cons, intercalate_data_cons] at h
      have hsplit := wellNestedFrom_split a.data b.data _ _ 0 ha.2 hb.2
        (by cases l1' <;> simp) (by cases l2' <;> simp) h
      obtain ⟨hab, hrest⟩ := hsplit
      have hab' : a = b := String.ext hab
      subst hab'
      have h1' : ∀ x ∈ l1', wellNested x = true := fun x hx => h1 x (List.mem_cons_of_mem _ hx)
      have h2' : ∀ x ∈ l2', wellNested x = true := fun x hx => h2 x (List.mem_cons_of_mem _ hx)
      cases l1' with
      | nil =>
        cases l2' with
        | nil => rfl
        | cons c l2'' => simp at hrest
      | cons c l1'' =>
        cases l2' with
        | nil => simp at hrest
        | cons c' l2'' =>
          simp only [List.cons.injEq, true_and] at hrest
          rw [ih (c' :: l2'') h1' h2' hrest]

namespace Executor

theorem signature_data (t : TDPPDetails) (s : List IOp) :
    (signature t s).data
      = "&launchTransformDPP_Kernel<ParArch::GPU_NVIDIA, ".data
        ++ ((tfi t).data ++ (',' :: ' ' :: ((threadDivisible t).data
        ++ (',' :: ' ' :: (t.typeName.data ++ (',' :: ' ' ::
            ((", ".intercalate (s.map IOp.typeName)).data ++ ['>']))))))) := by
  rw [signature, jit_internal.buildNameExpression_eq, jit_internal.buildOperationPipeline_types]
  simp [kernelNameWithDetails, String.data_append, List.append_assoc]

theorem tfi_cancel (t1 t2 : TDPPDetails) (X Y : List Char)
    (h : (tfi t1).data ++ X = (tfi t2).data ++ Y) : t1.tfiEnabled = t2.tfiEnabled ∧ X = Y := by
  unfold tfi at h
  cases h1 : t1.tfiEnabled <;> cases h2 : t2.tfiEnabled <;> simp [h1, h2] at h <;> simp [h]

theorem threadDivisible_cancel (t1 t2 : TDPPDetails) (X Y : List Char)
    (h : (threadDivisible t1).data ++ X = (threadDivisible t2).data ++ Y) :
    threadDivisible t1 = threadDivisible t2 ∧ X = Y := by
  have key : ∀ t : TDPPDetails, threadDivisible t = "true" ∨ threadDivisible t = "false" := by
    intro t
    unfold threadDivisible
    cases t.tfiEnabled <;> cases t.threadDivisible <;> simp
  rcases key t1 with e1 | e1 <;> rcases key t2 with e2 | e2 <;>
    rw [e1, e2] at h ⊢ <;> simp at h <;> simp [h]

theorem signature_eq_iff (t1 t2 : TDPPDetails) (s1 s2 : List IOp)
    (hd1 : wellNested t1.typeName = true) (hd2 : wellNested t2.typeName = true)
    (hs1 : ∀ iOp ∈ s1, wellNested iOp.typeName = true)
    (hs2 : ∀ iOp ∈ s2, wellNested iOp.typeName = true) :
    signature t1 s1 = signature t2 s2 ↔
      s1.map IOp.typeName = s2.map IOp.typeName ∧ t1.tfiEnabled = t2.tfiEnabled
        ∧ threadDivisible t1 = threadDivisible t2 ∧ t1.typeName = t2.typeName := by
  constructor
  · intro h
    have h := congrArg String.data h
    rw [signature_data, signature_data] at h
    have h := List.append_cancel_left h
    obtain ⟨hmode, h⟩ := tfi_cancel t1 t2 _ _ h
    simp only [List.cons.injEq, true_and] at h
    obtain ⟨hdiv, h⟩ := threadDivisible_cancel t1 t2 _ _ h
    simp only [List.cons.injEq, true_and] at h
    simp only [wellNested, Bool.and_eq_true] at hd1 hd2
    obtain ⟨hdet, h⟩ := wellNestedFrom_split _ _ _ _ 0 hd1.2 hd2.2
      (Or.inr ⟨_, rfl⟩) (Or.inr ⟨_, rfl⟩) h
    simp only [List.cons.injEq, true_and] at h
    have h := List.append_cancel_right h
    have htypes := intercalate_injective _ _
      (by intro x hx
          obtain ⟨iOp, hi, rfl⟩ := List.mem_map.mp hx
          exact hs1 iOp hi)
      (by intro x hx
          obtain ⟨iOp, hi, rfl⟩ := List.mem_map.mp hx
          exact hs2 iOp hi) h
    exact ⟨htypes, hmode, hdiv, String.ext hdet⟩
  · rintro ⟨htypes, hmode, hdiv, hdet⟩
    apply String.ext
    rw [signature_data, signature_data, htypes, hdiv, hdet]
    simp [tfi, hmode]

end Executor

/-! ## Retrying, and the keys of the map -/

theorem JitFkKernel.construct_ok_compiled (env : Env) (kernelName : String)
    (pipeline : List JIT_Operation_pp) (d d1 : Driver) (fk : JitFkKernel)
    (h : JitFkKernel.construct env kernelName pipeline d = (.ok fk, d1)) :
    d1.compiled = d.compiled ++ [jit_internal.buildNameExpression kernelName pipeline] := by
  unfold JitFkKernel.construct at h
  simp only at h
  iterate 9
    (split at h
     · first
       | cases h
       | (split at h <;> cases h))
  simp only [Prod.mk.injEq, Except.ok.injEq] at h
  obtain ⟨-, h2⟩ := h
  subst h2
  rfl

theorem JitFkKernel.construct_error_form (env : Env) (kernelName : String)
    (pipeline : List JIT_Operation_pp) (d : Driver) (e : JitError)
    (h : (JitFkKernel.construct env kernelName pipeline d).1 = .error e) :
    (∃ code, e = .gpuError code)
      ∨ ∃ text, e = .runtime_error text ∧ text.data.head? = some 'N' := by
  unfold JitFkKernel.construct at h
  simp only at h
  iterate 9
    (split at h
     · first
       | exact Or.inl ⟨_, (Except.error.inj h).symm⟩
       | (split at h
          · exact Or.inl ⟨_, (Except.error.inj h).symm⟩
          · exact Or.inr ⟨_, (Except.error.inj h).symm, by simp [String.data_append]⟩))
  cases h

theorem not_found_ne_nvrtc_error (text x : String) (h : text.data.head? = some 'N') :
    JitError.runtime_error text ≠ JitError.runtime_error ("JIT Kernel not found: " ++ x) := by
  intro heq
  have := JitError.runtime_error.inj heq
  subst this
  simp [String.data_append] at h

theorem KernelMap.assign_keyed (m : KernelMap) (key : String) (v : JitFkKernel)
    (hv : v.getNameExpression = key)
    (h : ∀ e ∈ m, e.2.getNameExpression = e.1) :
    ∀ e ∈ KernelMap.assign m key v, e.2.getNameExpression = e.1 := by
  induction m with
  | nil => intro e he; simp [KernelMap.assign] at he
  | cons x xs ih =>
    obtain ⟨k, w⟩ := x
    have hxs : ∀ e ∈ xs, e.2.getNameExpression = e.1 :=
      fun e he => h e (List.mem_cons_of_mem _ he)
    intro e he
    by_cases hk : k = key
    · simp only [KernelMap.assign, hk, if_true, List.mem_cons] at he
      rcases he with he | he
      · subst he
        simpa [JitFkKernel.copyAssign, JitFkKernel.getNameExpression] using hv
      · exact hxs e he
    · simp only [KernelMap.assign, hk, if_false, List.mem_cons] at he
      rcases he with he | he
      · subst he
        exact h (k, w) (List.mem_cons_self _ _)
      · exact ih hxs e he

theorem KernelMap.assign_append_absent (m : KernelMap) (key : String) (w v : JitFkKernel)
    (h : KernelMap.find m key = none) :
    KernelMap.assign (m ++ [(key, w)]) key v = m ++ [(key, w.copyAssign v)] := by
  induction m with
  | nil => simp [KernelMap.assign]
  | cons x xs ih =>
    obtain ⟨k, u⟩ := x
    by_cases hk : k = key
    · simp [KernelMap.find, hk] at h
    · simp only [KernelMap.find, hk, if_false] at h
      simp [KernelMap.assign, hk, ih h]

theorem JITExecutorCache.addJITKernel_keyed (c : JITExecutorCache) (fk : JitFkKernel)
    (h : ∀ e ∈ c.m_kernelCache, e.2.getNameExpression = e.1) :
    ∀ e ∈ (c.addJITKernel fk).m_kernelCache, e.2.getNameExpression = e.1 := by
  simp only [JITExecutorCache.addJITKernel, KernelMap.subscript]
  cases hf : KernelMap.find c.m_kernelCache fk.getNameExpression with
  | some w => exact KernelMap.assign_keyed _ _ fk rfl h
  | none =>
    simp only
    rw [KernelMap.assign_append_absent _ _ _ _ hf]
    intro e he
    rcases List.mem_append.mp he with he | he
    · exact h e he
    · simp only [List.mem_singleton] at he
      subst he
      simp [JitFkKernel.copyAssign, JitFkKernel.getNameExpression]

theorem JITExecutorCache.addKernel_keyed (env : Env) (kernelName : String)
    (pipeline : List JIT_Operation_pp) (c : JITExecutorCache) (d : Driver)
    (h : ∀ e ∈ c.m_kernelCache, e.2.getNameExpression = e.1) :
    ∀ e ∈ (JITExecutorCache.addKernel env kernelName pipeline c d).2.1.m_kernelCache,
      e.2.getNameExpression = e.1 := by
  cases hk : c.m_kernelCache.find (jit_internal.buildNameExpression kernelName pipeline) with
  | some w => rw [JITExecutorCache.addKernel_hit env kernelName pipeline c d w hk]; exact h
  | none =>
    rcases hc : JitFkKernel.construct env kernelName pipeline d with ⟨e | fk, d1⟩
    · rw [JITExecutorCache.addKernel_miss_error env kernelName pipeline c d d1 e hk hc]; exact h
    · rw [JITExecutorCache.addKernel_miss_ok env kernelName pipeline c d d1 fk hk hc]
      have := JITExecutorCache.addJITKernel_keyed c fk h
      rcases hd : fk.destroy env d1 with ⟨_ | _, d2⟩ <;> exact this

theorem JITExecutorCache.addKernels_keyed (env : Env)
    (calls : List (String × List JIT_Operation_pp)) (s : JITExecutorCache × Driver)
    (h : ∀ e ∈ s.1.m_kernelCache, e.2.getNameExpression = e.1) :
    ∀ e ∈ (JITExecutorCache.addKernels env calls s).1.m_kernelCache,
      e.2.getNameExpression = e.1 := by
  induction calls generalizing s with
  | nil => exact h
  | cons call rest ih =>
    obtain ⟨kernelName, pipeline⟩ := call
    simp only [JITExecutorCache.addKernels]
    exact ih _ (JITExecutorCache.addKernel_keyed env kernelName pipeline s.1 s.2 h)

theorem JITExecutorCache.addKernel_never_not_found (env : Env) (kernelName : String)
    (pipeline : List JIT_Operation_pp) (c : JITExecutorCache) (d : Driver) (x : String) :
    (JITExecutorCache.addKernel env kernelName pipeline c d).1
      ≠ .error (.runtime_error ("JIT Kernel not found: " ++ x)) := by
  cases hk : c.m_kernelCache.find (jit_internal.buildNameExpression kernelName pipeline) with
  | some w =>
    rw [JITExecutorCache.addKernel_hit env kernelName pipeline c d w hk]
    intro h; cases h
  | none =>
    rcases hc : JitFkKernel.construct env kernelName pipeline d with ⟨e | fk, d1⟩
    · rw [JITExecutorCache.addKernel_miss_error env kernelName pipeline c d d1 e hk hc]
      intro h
      have he : e = .runtime_error ("JIT Kernel not found: " ++ x) := Except.error.inj h
      have hform := JitFkKernel.construct_error_form env kernelName pipeline d e
        (by rw [hc])
      rcases hform with ⟨code, hcode⟩ | ⟨text, htext⟩
      · rw [hcode] at he; cases he
      · obtain ⟨htext, hhead⟩ := htext
        rw [htext] at he; exact not_found_ne_nvrtc_error text x hhead he
    · rw [JITExecutorCache.addKernel_miss_ok env kernelName pipeline c d d1 fk hk hc]
      by_cases hcode : (cuModuleUnload env fk.m_module d1).1 = 0
      · simp [JitFkKernel.destroy, hcode]
      · simp [JitFkKernel.destroy, hcode]

/-! ## What the constructor hands to the compiler -/

theorem JitFkKernel.construct_env_congr (env env' : Env) (kernelName : String)
    (pipeline : List JIT_Operation_pp) (d : Driver)
    (hrun : env'.nvrtc d.programs.length JitFkKernel.includes
              (jit_internal.buildNameExpression kernelName pipeline)
          = env.nvrtc d.programs.length JitFkKernel.includes
              (jit_internal.buildNameExpression kernelName pipeline))
    (htext : env'.nvrtcGetErrorString = env.nvrtcGetErrorString) :
    JitFkKernel.construct env' kernelName pipeline d
      = JitFkKernel.construct env kernelName pipeline d := by
  simp only [JitFkKernel.construct, hrun, htext]

theorem JitFkKernel.construct_compiled_mono (env : Env) (kernelName : String)
    (pipeline : List JIT_Operation_pp) (d : Driver) (x : String) (hx : x ∈ d.compiled) :
    x ∈ (JitFkKernel.construct env kernelName pipeline d).2.compiled := by
  unfold JitFkKernel.construct
  simp only
  repeat' split
  all_goals simp [hx]

theorem KernelMap.assign_keys (m : KernelMap) (key : String) (v : JitFkKernel) :
    (KernelMap.assign m key v).map Prod.fst = m.map Prod.fst := by
  induction m with
  | nil => rfl
  | cons x xs ih =>
    obtain ⟨k, w⟩ := x
    by_cases hk : k = key
    · simp [KernelMap.assign, hk]
    · simp [KernelMap.assign, hk, ih]

theorem JITExecutorCache.addJITKernel_keys (c : JITExecutorCache) (fk : JitFkKernel)
    (entry : String × JitFkKernel) (h : entry ∈ (c.addJITKernel fk).m_kernelCache) :
    entry.1 ∈ c.m_kernelCache.map Prod.fst ∨ entry.1 = fk.getNameExpression := by
  have hkey : entry.1 ∈ ((c.addJITKernel fk).m_kernelCache).map Prod.fst :=
    List.mem_map_of_mem _ h
  simp only [JITExecutorCache.addJITKernel, KernelMap.assign_keys, KernelMap.subscript] at hkey
  cases hf : KernelMap.find c.m_kernelCache fk.getNameExpression with
  | some w =>
    simp only [hf] at hkey
    exact Or.inl hkey
  | none =>
    simp only [hf, List.map_append, List.map_cons, List.map_nil, List.mem_append,
      List.mem_singleton] at hkey
    exact hkey

theorem JITExecutorCache.addKernel_registered (env : Env) (kernelName : String)
    (pipeline : List JIT_Operation_pp) (c : JITExecutorCache) (d : Driver)
    (h : ∀ e ∈ c.m_kernelCache, e.1 ∈ d.compiled) :
    ∀ e ∈ (JITExecutorCache.addKernel env kernelName pipeline c d).2.1.m_kernelCache,
      e.1 ∈ (JITExecutorCache.addKernel env kernelName pipeline c d).2.2.compiled := by
  cases hk : c.m_kernelCache.find (jit_internal.buildNameExpression kernelName pipeline) with
  | some w => rw [JITExecutorCache.addKernel_hit env kernelName pipeline c d w hk]; exact h
  | none =>
    have hmono := JitFkKernel.construct_compiled_mono env kernelName pipeline d
    rcases hc : JitFkKernel.construct env kernelName pipeline d with ⟨e | fk, d1⟩
    · rw [JITExecutorCache.addKernel_miss_error env kernelName pipeline c d d1 e hk hc]
      rw [hc] at hmono
      exact fun entry hentry => hmono _ (h entry hentry)
    · rw [JITExecutorCache.addKernel_miss_ok env kernelName pipeline c d d1 fk hk hc]
      rw [hc] at hmono
      have hname := (JitFkKernel.construct_ok env kernelName pipeline d d1 fk hc).1
      have hcomp := JitFkKernel.construct_ok_compiled env kernelName pipeline d d1 fk hc
      have hall : ∀ entry ∈ (c.addJITKernel fk).m_kernelCache, entry.1 ∈ d1.compiled := by
        intro entry hentry
        rcases JITExecutorCache.addJITKernel_keys c fk entry hentry with hold | hnew
        · obtain ⟨e', he', hfst⟩ := List.mem_map.mp hold
          rw [← hfst]
          exact hmono _ (h e' he')
        · rw [hnew, JitFkKernel.getNameExpression, hname, hcomp]
          simp
      rcases hd : fk.destroy env d1 with ⟨_ | _, d2⟩
      all_goals
        have hd2 : d2.compiled = d1.compiled := by
          have := congrArg (fun r => r.2.compiled) hd
          simp only [JitFkKernel.destroy, cuModuleUnload] at this
          split at this <;> exact this.symm
        simp only [hd2]
        exact hall

theorem JITExecutorCache.addKernels_registered (env : Env)
    (calls : List (String × List JIT_Operation_pp)) (s : JITExecutorCache × Driver)
    (h : ∀ e ∈ s.1.m_kernelCache, e.1 ∈ s.2.compiled) :
    ∀ e ∈ (JITExecutorCache.addKernels env calls s).1.m_kernelCache,
      e.1 ∈ (JITExecutorCache.addKernels env calls s).2.compiled := by
  induction calls generalizing s with
  | nil => exact h
  | cons call rest ih =>
    obtain ⟨kernelName, pipeline⟩ := call
    simp only [JITExecutorCache.addKernels]
    exact ih _ (JITExecutorCache.addKernel_registered env kernelName pipeline s.1 s.2 h)

theorem Executor.launchDimensions_block_and_z (getDefaultBlockSize : Nat → Nat → CtxDim3)
    (tDetails : TDPPDetails) (iOps : List IOp) (grid block : dim3)
    (h : Executor.launchDimensions getDefaultBlockSize tDetails iOps = some (grid, block)) :
    ∃ threads, Executor.activeThreads tDetails iOps = some threads
      ∧ grid.z = threads.z ∧ block.z = 1
      ∧ block.x = (getDefaultBlockSize threads.x threads.y).x
      ∧ block.y = (getDefaultBlockSize threads.x threads.y).y
      ∧ Executor.gridExtent threads.x block.x = some grid.x
      ∧ Executor.gridExtent threads.y block.y = some grid.y := by
  unfold Executor.launchDimensions at h
  cases ha : Executor.activeThreads tDetails iOps with
  | none => simp [ha] at h
  | some threads =>
    simp only [ha] at h
    split at h
    · simp only [Option.some.injEq, Prod.mk.injEq] at h
      obtain ⟨hg, hb⟩ := h
      subst hg hb
      exact ⟨threads, rfl, rfl, rfl, rfl, rfl, by assumption, by assumption⟩
    · cases h

theorem Float32.roundQuotient_known_values :
    Float32.roundQuotient 1 10 = { num := 13421773, shift := 27 }
      ∧ Float32.roundQuotient 1 3 = { num := 11184811, shift := 25 }
      ∧ Float32.ofUInt 16777216 = { num := 16777216, shift := 0 }
      ∧ Float32.ofUInt 16777217 = { num := 16777216, shift := 0 }
      ∧ Float32.ofUInt 16777219 = { num := 16777220, shift := 0 }
      ∧ Float32.ofUInt 4294967295 = { num := 4294967296, shift := 0 } := by
  decide

theorem Executor.gridExtent_small :
    ∀ x < 24, ∀ b < 7, 0 < b → Executor.gridExtent x b = some ((x + b - 1) / b) := by
  decide

/-! ## The claims -/

set_option maxRecDepth 100000

set_option maxHeartbeats 1000000

/-- C6: `jit_internal::buildNameExpression(k, pipeline)` is `"&"`, then `k`,
then the type names of the pipeline in order joined by `", "` (a separator
between consecutive names only, none after the last), then `">"`; for the empty
pipeline it is `"&" ++ k ++ ">"`.  The free `fk::buildNameExpression` is the
same with `k` fixed to `genericKernel<`. -/
theorem buildNameExpression_format (k : String) (pipeline : List JIT_Operation_pp) :
    jit_internal.buildNameExpression k pipeline
        = "&" ++ k ++ ", ".intercalate (pipeline.map JIT_Operation_pp.getType) ++ ">"
      ∧ jit_internal.buildNameExpression k [] = "&" ++ k ++ ">"
      ∧ fk.buildNameExpression pipeline
        = "&" ++ "genericKernel<" ++ ", ".intercalate (pipeline.map JIT_Operation_pp.getType)
            ++ ">" := by
  refine ⟨jit_internal.buildNameExpression_eq k pipeline, ?_, ?_⟩
  · rw [jit_internal.buildNameExpression_eq]
    simp [String.intercalate]
  · simp only [fk.buildNameExpression]
    rw [jit_internal.buildNameExpressionLoop_eq pipeline.length pipeline 0 _ (by simp)]
    rfl

/-- C7: `buildOperationPipeline` returns as many descriptors as there are
stages, and descriptor `i` carries the type name, the address and the byte size
of stage `i`: nothing is dropped, duplicated or reordered. -/
theorem buildOperationPipeline_descriptors (iOps : List IOp) :
    (jit_internal.buildOperationPipeline iOps).length = iOps.length
      ∧ ∀ i : Nat, (jit_internal.buildOperationPipeline iOps)[i]?
          = (iOps[i]?).map
              (fun iOp => JIT_Operation_pp.mk iOp.typeName iOp.address iOp.sizeOf) := by
  rw [jit_internal.buildOperationPipeline_eq_map]
  exact ⟨by simp, fun i => by simp⟩

/-- C8: `buildKernelArguments` returns one pointer per descriptor, the `i`-th
being descriptor `i`'s data pointer; the executor's argument list is
`&tDetails` followed by them, `N + 1` arguments, and argument `i + 1` is the
data pointer of the descriptor whose type name is the `i`-th of the
signature. -/
theorem launchArguments_order (tDetails : TDPPDetails) (iOps : List IOp)
    (pipeline : List JIT_Operation_pp) :
    (jit_internal.buildKernelArguments pipeline).length = pipeline.length
      ∧ (∀ i : Nat, (jit_internal.buildKernelArguments pipeline)[i]?
            = (pipeline[i]?).map JIT_Operation_pp.getData)
      ∧ Executor.launchArguments tDetails iOps
          = tDetails.address
              :: jit_internal.buildKernelArguments (jit_internal.buildOperationPipeline iOps)
      ∧ (Executor.launchArguments tDetails iOps).length = iOps.length + 1
      ∧ (Executor.launchArguments tDetails iOps)[0]? = some tDetails.address
      ∧ (∀ i : Nat, (Executor.launchArguments tDetails iOps)[i + 1]?
            = ((jit_internal.buildOperationPipeline iOps)[i]?).map JIT_Operation_pp.getData)
      ∧ Executor.signature tDetails iOps
          = "&" ++ Executor.kernelNameWithDetails tDetails
              ++ ", ".intercalate
                  ((jit_internal.buildOperationPipeline iOps).map JIT_Operation_pp.getType)
              ++ ">" := by
  refine ⟨?_, ?_, rfl, ?_, ?_, ?_, ?_⟩
  · simp [jit_internal.buildKernelArguments_eq_map]
  · intro i; simp [jit_internal.buildKernelArguments_eq_map]
  · simp [Executor.launchArguments, jit_internal.buildKernelArguments_eq_map,
      jit_internal.buildOperationPipeline_eq_map]
  · simp [Executor.launchArguments]
  · intro i
    simp [Executor.launchArguments, jit_internal.buildKernelArguments_eq_map]
  · rw [Executor.signature, jit_internal.buildNameExpression_eq]

/-- C1: once `addKernel` has succeeded for `(kernelName, pipeline)`, a later
`addKernel` with the same kernel name and a pipeline of the same type names
(pointers and sizes free), after any `addKernel` calls in between, returns the
same handle and leaves the cache map and the state of the services as they
were: no program is created or compiled, no `JitFkKernel` is constructed. -/
theorem addKernel_cache_hit (env : Env) (kernelName : String)
    (pipeline pipeline' : List JIT_Operation_pp) (c : JITExecutorCache) (d : Driver)
    (f : CUfunction) (between : List (String × List JIT_Operation_pp))
    (hfirst : (JITExecutorCache.addKernel env kernelName pipeline c d).1 = .ok f)
    (htypes : pipeline'.map JIT_Operation_pp.getType = pipeline.map JIT_Operation_pp.getType) :
    JITExecutorCache.addKernel env kernelName pipeline'
        (JITExecutorCache.addKernels env between
          (JITExecutorCache.addKernel env kernelName pipeline c d).2).1
        (JITExecutorCache.addKernels env between
          (JITExecutorCache.addKernel env kernelName pipeline c d).2).2
      = (.ok f, JITExecutorCache.addKernels env between
          (JITExecutorCache.addKernel env kernelName pipeline c d).2) := by
  obtain ⟨v, hv, hf⟩ := JITExecutorCache.addKernel_ok_find env kernelName pipeline c d f hfirst
  have hlater := JITExecutorCache.addKernels_find_preserved env between _ _ v hv
  rw [← jit_internal.buildNameExpression_congr kernelName pipeline pipeline' htypes] at hlater
  rw [JITExecutorCache.addKernel_hit env kernelName pipeline' _ _ v hlater, hf]

/-- C1, at the test pipeline: compiled once, another kernel added in between,
then requested again with the stages at other addresses. -/
theorem addKernel_cache_hit_witness :
    (JITExecutorCache.addKernel Scenario.quietEnv "k<" Scenario.pipeline Scenario.emptyCache
        Scenario.freshDriver).1
        = .ok (some { module := 0, name := "_Z25launchTransformDPP_Kernel" })
      ∧ Scenario.pipelineAgain.map JIT_Operation_pp.getType
          = Scenario.pipeline.map JIT_Operation_pp.getType
      ∧ JITExecutorCache.addKernel Scenario.quietEnv "k<" Scenario.pipelineAgain
          (JITExecutorCache.addKernels Scenario.quietEnv [("other<", [])]
            (JITExecutorCache.addKernel Scenario.quietEnv "k<" Scenario.pipeline
              Scenario.emptyCache Scenario.freshDriver).2).1
          (JITExecutorCache.addKernels Scenario.quietEnv [("other<", [])]
            (JITExecutorCache.addKernel Scenario.quietEnv "k<" Scenario.pipeline
              Scenario.emptyCache Scenario.freshDriver).2).2
        = (.ok (some { module := 0, name := "_Z25launchTransformDPP_Kernel" }),
            JITExecutorCache.addKernels Scenario.quietEnv [("other<", [])]
              (JITExecutorCache.addKernel Scenario.quietEnv "k<" Scenario.pipeline
                Scenario.emptyCache Scenario.freshDriver).2) :=
  ⟨rfl, rfl,
    addKernel_cache_hit Scenario.quietEnv "k<" Scenario.pipeline Scenario.pipelineAgain
      Scenario.emptyCache Scenario.freshDriver _ [("other<", [])] rfl rfl⟩

/-- C2: when the signature is not cached and the `JitFkKernel` constructor
throws, `addKernel` ends with that same exception and the cache map is the one
from before the call: nothing inserted, nothing removed or changed. -/
theorem addKernel_compile_failure (env : Env) (kernelName : String)
    (pipeline : List JIT_Operation_pp) (c : JITExecutorCache) (d : Driver) (e : JitError)
    (hmiss : c.hasJITKernel (jit_internal.buildNameExpression kernelName pipeline) = false)
    (hthrow : (JitFkKernel.construct env kernelName pipeline d).1 = .error e) :
    JITExecutorCache.addKernel env kernelName pipeline c d
      = (.error e, c, (JitFkKernel.construct env kernelName pipeline d).2) := by
  have hfind : c.m_kernelCache.find (jit_internal.buildNameExpression kernelName pipeline)
      = none := by
    simpa [JITExecutorCache.hasJITKernel] using hmiss
  rcases hc : JitFkKernel.construct env kernelName pipeline d with ⟨r, d1⟩
  rw [hc] at hthrow
  simp only at hthrow
  subst hthrow
  exact JITExecutorCache.addKernel_miss_error env kernelName pipeline c d d1 e hfind hc

/-- C2, at a compile that fails with a diagnostic, on a cache that holds
another kernel. -/
theorem addKernel_compile_failure_witness :
    (JITExecutorCache.addKernel Scenario.quietEnv "other<" [] Scenario.emptyCache
        Scenario.freshDriver).2.1.hasJITKernel
        (jit_internal.buildNameExpression "k<" Scenario.pipeline) = false
      ∧ (JitFkKernel.construct Scenario.failingEnv "k<" Scenario.pipeline
          (JITExecutorCache.addKernel Scenario.quietEnv "other<" [] Scenario.emptyCache
            Scenario.freshDriver).2.2).1
        = .error (.runtime_error
            "NVRTC Error: NVRTC_ERROR_COMPILATION\nNVRTC Log:\nerror: identifier is undefined\n\n")
      ∧ JITExecutorCache.addKernel Scenario.failingEnv "k<" Scenario.pipeline
          (JITExecutorCache.addKernel Scenario.quietEnv "other<" [] Scenario.emptyCache
            Scenario.freshDriver).2.1
          (JITExecutorCache.addKernel Scenario.quietEnv "other<" [] Scenario.emptyCache
            Scenario.freshDriver).2.2
        = (.error (.runtime_error
            "NVRTC Error: NVRTC_ERROR_COMPILATION\nNVRTC Log:\nerror: identifier is undefined\n\n"),
           (JITExecutorCache.addKernel Scenario.quietEnv "other<" [] Scenario.emptyCache
            Scenario.freshDriver).2.1,
           (JitFkKernel.construct Scenario.failingEnv "k<" Scenario.pipeline
            (JITExecutorCache.addKernel Scenario.quietEnv "other<" [] Scenario.emptyCache
              Scenario.freshDriver).2.2).2) :=
  ⟨rfl, rfl,
    addKernel_compile_failure Scenario.failingEnv "k<" Scenario.pipeline _ _ _ rfl rfl⟩

/-- C3: the constructor does not look at the compile result.  At a compile
that reports `NVRTC_SUCCESS` and leaves a warning in the log (log size above
one) the constructor throws `std::runtime_error`, where the claim has it go
on. -/
theorem construct_throws_on_successful_compile :
    (Scenario.warningEnv.nvrtc 0 JitFkKernel.includes
        (jit_internal.buildNameExpression "k<" Scenario.pipeline)).compileProgram = 0
      ∧ (JitFkKernel.construct Scenario.warningEnv "k<" Scenario.pipeline
          Scenario.freshDriver).1
        = .error (.runtime_error
            "NVRTC Error: NVRTC_SUCCESS\nNVRTC Log:\nwarning: variable was never referenced\n\n") :=
  ⟨rfl, rfl⟩

/-- C9: on a miss `addKernel` unloads the module of the kernel it has just
cached, at the end of the block of the local `fkKernel`, before it returns.  At
the test pipeline the call returns a handle resolved from module `0`, the cache
entry holds module `0`, the one `cuModuleUnload` call so far is for module `0`
and no module is loaded; the hit that follows returns the same handle in the
same state. -/
theorem addKernel_returns_handle_of_unloaded_module :
    (JITExecutorCache.addKernel Scenario.quietEnv "k<" Scenario.pipeline Scenario.emptyCache
        Scenario.freshDriver).1
        = .ok (some { module := 0, name := "_Z25launchTransformDPP_Kernel" })
      ∧ ((JITExecutorCache.addKernel Scenario.quietEnv "k<" Scenario.pipeline
            Scenario.emptyCache Scenario.freshDriver).2.1.m_kernelCache.find
            (jit_internal.buildNameExpression "k<" Scenario.pipeline)).map
          JitFkKernel.m_module = some (some 0)
      ∧ (JITExecutorCache.addKernel Scenario.quietEnv "k<" Scenario.pipeline Scenario.emptyCache
          Scenario.freshDriver).2.2.unloadCalls = [some 0]
      ∧ (JITExecutorCache.addKernel Scenario.quietEnv "k<" Scenario.pipeline Scenario.emptyCache
          Scenario.freshDriver).2.2.loaded = []
      ∧ JITExecutorCache.addKernel Scenario.quietEnv "k<" Scenario.pipelineAgain
          (JITExecutorCache.addKernel Scenario.quietEnv "k<" Scenario.pipeline
            Scenario.emptyCache Scenario.freshDriver).2.1
          (JITExecutorCache.addKernel Scenario.quietEnv "k<" Scenario.pipeline
            Scenario.emptyCache Scenario.freshDriver).2.2
        = (.ok (some { module := 0, name := "_Z25launchTransformDPP_Kernel" }),
            (JITExecutorCache.addKernel Scenario.quietEnv "k<" Scenario.pipeline
              Scenario.emptyCache Scenario.freshDriver).2) :=
  ⟨rfl, rfl, rfl, rfl, rfl⟩

/-- C10: over a run of one successful `addKernel` and the teardown,
`cuModuleUnload` is called twice for the one module the compile loaded: once
when `addKernel` leaves the block of the local `fkKernel`, once more when the
teardown destroys the cache entry, which holds a copy of the same handle.  With
two kernels cached each of the two modules is unloaded twice. -/
theorem teardown_unloads_each_module_twice :
    (JITExecutorCache.destroy Scenario.quietEnv
        (JITExecutorCache.addKernel Scenario.quietEnv "k<" Scenario.pipeline
          Scenario.emptyCache Scenario.freshDriver).2.1
        (JITExecutorCache.addKernel Scenario.quietEnv "k<" Scenario.pipeline
          Scenario.emptyCache Scenario.freshDriver).2.2).2.unloadCalls = [some 0, some 0]
      ∧ (JITExecutorCache.destroy Scenario.quietEnv
          (JITExecutorCache.addKernels Scenario.quietEnv
            [("k<", Scenario.pipeline), ("other<", [])]
            (Scenario.emptyCache, Scenario.freshDriver)).1
          (JITExecutorCache.addKernels Scenario.quietEnv
            [("k<", Scenario.pipeline), ("other<", [])]
            (Scenario.emptyCache, Scenario.freshDriver)).2).2.unloadCalls
        = [some 0, some 1, some 0, some 1] :=
  ⟨rfl, rfl⟩

/-- The join of raw strings is not injective: a name with a comma outside
brackets reads as two names.  This is why the type names are taken well
nested below. -/
theorem signature_collision_on_unnested_comma :
    Executor.signature Scenario.details
        [{ Scenario.mulOp with typeName := "A, B" }]
      = Executor.signature Scenario.details
        [{ Scenario.mulOp with typeName := "A" }, { Scenario.addOp with typeName := "B" }] := by
  decide

/-- C4, as the code has it: for well nested type names (not empty, angle
brackets balanced, commas inside brackets only) two signatures of the executor
are equal if and only if the ordered stage type names are equal, the mode flags
are equal, the thread-divisible texts are equal and the type names of the
thread details are equal.  So reordering stages of different types changes the
signature, and `TF::ENABLED` and `TF::DISABLED` never share one. -/
theorem signature_injective (t1 t2 : TDPPDetails) (s1 s2 : List IOp)
    (hd1 : wellNested t1.typeName = true) (hd2 : wellNested t2.typeName = true)
    (hs1 : ∀ iOp ∈ s1, wellNested iOp.typeName = true)
    (hs2 : ∀ iOp ∈ s2, wellNested iOp.typeName = true) :
    Executor.signature t1 s1 = Executor.signature t2 s2 ↔
      s1.map IOp.typeName = s2.map IOp.typeName ∧ t1.tfiEnabled = t2.tfiEnabled
        ∧ Executor.threadDivisible t1 = Executor.threadDivisible t2
        ∧ t1.typeName = t2.typeName :=
  Executor.signature_eq_iff t1 t2 s1 s2 hd1 hd2 hs1 hs2

/-- C4, at the test pipeline in the enabled mode, launched twice. -/
theorem signature_injective_witness :
    wellNested Scenario.fusedDivisible.typeName = true
      ∧ wellNested Scenario.fusedDivisibleAgain.typeName = true
      ∧ (∀ iOp ∈ Scenario.stages, wellNested iOp.typeName = true)
      ∧ (∀ iOp ∈ Scenario.stagesAgain, wellNested iOp.typeName = true)
      ∧ (Executor.signature Scenario.fusedDivisible Scenario.stages
            = Executor.signature Scenario.fusedDivisibleAgain Scenario.stagesAgain ↔
          Scenario.stages.map IOp.typeName = Scenario.stagesAgain.map IOp.typeName
            ∧ Scenario.fusedDivisible.tfiEnabled = Scenario.fusedDivisibleAgain.tfiEnabled
            ∧ Executor.threadDivisible Scenario.fusedDivisible
                = Executor.threadDivisible Scenario.fusedDivisibleAgain
            ∧ Scenario.fusedDivisible.typeName = Scenario.fusedDivisibleAgain.typeName) :=
  ⟨by decide, by decide, by decide, by decide,
    signature_injective Scenario.fusedDivisible Scenario.fusedDivisibleAgain Scenario.stages
      Scenario.stagesAgain (by decide) (by decide) (by decide) (by decide)⟩

/-- C4 as stated fails: in the enabled mode the same stage types and the same
mode flag give two signatures, one with `false` and one with `true`, as the
run-time flag `tDetails.threadDivisible` has it. -/
theorem signature_not_determined_by_mode_and_types :
    ¬ (Executor.signature Scenario.fusedDivisible Scenario.stages
          = Executor.signature Scenario.fusedNotDivisible Scenario.stages ↔
        Scenario.stages.map IOp.typeName = Scenario.stages.map IOp.typeName
          ∧ Scenario.fusedDivisible.tfiEnabled = Scenario.fusedNotDivisible.tfiEnabled) := by
  intro h
  have heq := h.mpr ⟨rfl, rfl⟩
  revert heq
  decide

/-- C5, as the code has it: two requests with the same mode flag, the same
type of thread details and the same ordered stage types have the same
signature whatever the addresses, sizes and extents, provided that in the
enabled mode `tDetails.threadDivisible` is the same; in the disabled mode no
run-time value enters the signature. -/
theorem signature_invariant_under_runtime_values (t1 t2 : TDPPDetails) (s1 s2 : List IOp)
    (hmode : t1.tfiEnabled = t2.tfiEnabled) (hdetails : t1.typeName = t2.typeName)
    (htypes : s1.map IOp.typeName = s2.map IOp.typeName)
    (hdiv : t1.tfiEnabled = true → t1.threadDivisible = t2.threadDivisible) :
    Executor.signature t1 s1 = Executor.signature t2 s2 := by
  have hd : Executor.threadDivisible t1 = Executor.threadDivisible t2 := by
    unfold Executor.threadDivisible
    rw [← hmode]
    cases h : t1.tfiEnabled
    · rfl
    · rw [hdiv h]
  apply String.ext
  rw [Executor.signature_data, Executor.signature_data, htypes, hd, hdetails]
  simp [Executor.tfi, hmode]

/-- C5, at the test pipeline in the enabled mode: the second launch has the
stages and the details at other addresses, with other extents. -/
theorem signature_invariant_under_runtime_values_witness :
    Scenario.fusedDivisible.tfiEnabled = Scenario.fusedDivisibleAgain.tfiEnabled
      ∧ Scenario.fusedDivisible.typeName = Scenario.fusedDivisibleAgain.typeName
      ∧ Scenario.stages.map IOp.typeName = Scenario.stagesAgain.map IOp.typeName
      ∧ (Scenario.fusedDivisible.tfiEnabled = true →
          Scenario.fusedDivisible.threadDivisible = Scenario.fusedDivisibleAgain.threadDivisible)
      ∧ Scenario.stages ≠ Scenario.stagesAgain
      ∧ Scenario.fusedDivisible ≠ Scenario.fusedDivisibleAgain
      ∧ Executor.signature Scenario.fusedDivisible Scenario.stages
          = Executor.signature Scenario.fusedDivisibleAgain Scenario.stagesAgain :=
  ⟨rfl, rfl, rfl, fun _ => rfl, by decide, by decide,
    signature_invariant_under_runtime_values Scenario.fusedDivisible
      Scenario.fusedDivisibleAgain Scenario.stages Scenario.stagesAgain rfl rfl rfl
      (fun _ => rfl)⟩

/-- C5 as stated fails: two requests in the enabled mode with the same stage
types, differing in the extents and in the `threadDivisible` flag derived from
them, have different signatures. -/
theorem signature_changes_with_thread_details :
    Scenario.fusedDivisible.tfiEnabled = Scenario.fusedNotDivisible.tfiEnabled
      ∧ Scenario.fusedDivisible.typeName = Scenario.fusedNotDivisible.typeName
      ∧ [Scenario.readOp, Scenario.writeOp].map IOp.typeName
          = [Scenario.relocate Scenario.readOp, Scenario.relocate Scenario.writeOp].map
              IOp.typeName
      ∧ Executor.signature Scenario.fusedDivisible [Scenario.readOp, Scenario.writeOp]
          ≠ Executor.signature Scenario.fusedNotDivisible
              [Scenario.relocate Scenario.readOp, Scenario.relocate Scenario.writeOp] := by
  refine ⟨rfl, rfl, rfl, ?_⟩
  decide

/-- C12: the cache key and the entry point handed to the compiler are one
string.  The constructor for `(kernelName, pipeline)` creates its program for
the name expression `addKernel` looks up, consults the compiler at that name
expression and no other, and a kernel it returns carries that string as its
own name expression, compiled for it, so the lookup after the insert finds it.
After any run of `addKernel` calls on the cache as its constructor leaves it,
every entry is stored under its kernel's own name expression, which is among
the name expressions compiled; and no `addKernel` call ends with the error
`JIT Kernel not found` of `getCUfunction`. -/
theorem cache_key_is_name_expression (env : Env)
    (calls : List (String × List JIT_Operation_pp)) (d : Driver) (kernelName : String)
    (pipeline : List JIT_Operation_pp) :
    (JITExecutorCache.addKernels env calls ({ m_kernelCache := [] }, d)).1.m_kernelCache.all
        (fun entry => entry.2.getNameExpression == entry.1
          && decide (entry.1 ∈
              (JITExecutorCache.addKernels env calls ({ m_kernelCache := [] }, d)).2.compiled))
        = true
      ∧ (∀ d0 : Driver, (JitFkKernel.construct env kernelName pipeline d0).2.programs
          = d0.programs ++ [jit_internal.buildNameExpression kernelName pipeline])
      ∧ (∀ (env' : Env) (d0 : Driver),
          env'.nvrtc d0.programs.length JitFkKernel.includes
              (jit_internal.buildNameExpression kernelName pipeline)
            = env.nvrtc d0.programs.length JitFkKernel.includes
              (jit_internal.buildNameExpression kernelName pipeline) →
          env'.nvrtcGetErrorString = env.nvrtcGetErrorString →
          JitFkKernel.construct env' kernelName pipeline d0
            = JitFkKernel.construct env kernelName pipeline d0)
      ∧ (∀ (c : JITExecutorCache) (d0 d1 : Driver) (fk : JitFkKernel),
          JitFkKernel.construct env kernelName pipeline d0 = (.ok fk, d1) →
            fk.getNameExpression = jit_internal.buildNameExpression kernelName pipeline
              ∧ d1.compiled
                = d0.compiled ++ [jit_internal.buildNameExpression kernelName pipeline]
              ∧ (c.addJITKernel fk).getCUfunction
                  (jit_internal.buildNameExpression kernelName pipeline)
                = .ok fk.getKernelFunction)
      ∧ ∀ (c : JITExecutorCache) (d0 : Driver) (x : String),
          (JITExecutorCache.addKernel env kernelName pipeline c d0).1
            ≠ .error (.runtime_error ("JIT Kernel not found: " ++ x)) := by
  refine ⟨?_, ?_, ?_, ?_, ?_⟩
  · rw [List.all_eq_true]
    intro entry hentry
    have hkeyed := JITExecutorCache.addKernels_keyed env calls ({ m_kernelCache := [] }, d)
      (by intro e he; simp at he) entry hentry
    have hreg := JITExecutorCache.addKernels_registered env calls ({ m_kernelCache := [] }, d)
      (by intro e he; simp at he) entry hentry
    simp [hkeyed, hreg]
  · intro d0
    unfold JitFkKernel.construct
    simp only
    repeat' split
    all_goals rfl
  · intro env' d0 hrun htext
    simp only [JitFkKernel.construct, hrun, htext]
  · intro c d0 d1 fk hc
    have hname := (JitFkKernel.construct_ok env kernelName pipeline d0 d1 fk hc).1
    have hcomp : d1.compiled
        = d0.compiled ++ [jit_internal.buildNameExpression kernelName pipeline] := by
      have h := hc
      unfold JitFkKernel.construct at h
      simp only at h
      iterate 9
        (split at h
         · first
           | cases h
           | (split at h <;> cases h))
      simp only [Prod.mk.injEq, Except.ok.injEq] at h
      obtain ⟨-, h2⟩ := h
      subst h2
      rfl
    have hentry := JITExecutorCache.find_addJITKernel c fk
    simp only [JitFkKernel.getNameExpression, hname] at hentry
    exact ⟨hname, hcomp, by simp [JITExecutorCache.getCUfunction, hentry]⟩
  · intro c d0 x
    exact JITExecutorCache.addKernel_never_not_found env kernelName pipeline c d0 x

/-- C12, at the test pipeline with a second kernel cached next to it: both
entries sit under the name expressions that were compiled, and the program of
the test pipeline is created for its lookup key. -/
theorem cache_key_is_name_expression_witness :
    (JITExecutorCache.addKernels Scenario.quietEnv
        [("k<", Scenario.pipeline), ("other<", [])]
        ({ m_kernelCache := [] }, Scenario.freshDriver)).1.m_kernelCache.all
      (fun entry => entry.2.getNameExpression == entry.1
        && decide (entry.1 ∈
            (JITExecutorCache.addKernels Scenario.quietEnv
              [("k<", Scenario.pipeline), ("other<", [])]
              ({ m_kernelCache := [] }, Scenario.freshDriver)).2.compiled)) = true
      ∧ (JitFkKernel.construct Scenario.quietEnv "k<" Scenario.pipeline
          Scenario.freshDriver).2.programs
        = Scenario.freshDriver.programs
            ++ [jit_internal.buildNameExpression "k<" Scenario.pipeline] :=
  ⟨(cache_key_is_name_expression Scenario.quietEnv
      [("k<", Scenario.pipeline), ("other<", [])] Scenario.freshDriver "k<"
      Scenario.pipeline).1,
    (cache_key_is_name_expression Scenario.quietEnv
      [("k<", Scenario.pipeline), ("other<", [])] Scenario.freshDriver "k<"
      Scenario.pipeline).2.1 Scenario.freshDriver⟩

/-- C13: the grid is computed in single precision and is not the exact
ceiling division for wide extents.  With `2 ^ 31 + 1` active threads in `x` and
a block of 256 by 1, the conversion to `float` rounds the extent to `2 ^ 31`
and the grid is `(8388608, 1, 1)`: `grid.x * 256` is below the extent, the
exact ceiling is `8388609`.  The same happens for every block width from 32 to
1024, and with a block of width one at `2 ^ 24 + 1`.  At the 256 elements of
the test the grid is `(1, 1, 1)`.  The `z` extent is passed through and the
block has `z = 1`. -/
theorem grid_misses_threads_of_wide_extent :
    Executor.launchDimensions Scenario.blockSize Scenario.details Scenario.wideStages
        = some ({ x := 8388608, y := 1, z := 1 }, { x := 256, y := 1, z := 1 })
      ∧ 8388608 * 256 < 2147483649
      ∧ (2147483649 + 256 - 1) / 256 = 8388609
      ∧ Float32.ofUInt 2147483649 = { num := 2147483648, shift := 0 }
      ∧ (∀ bx ∈ [32, 64, 128, 256, 512, 1024],
          Executor.gridExtent 2147483649 bx = some (2147483648 / bx)
            ∧ 2147483648 / bx * bx < 2147483649)
      ∧ Executor.gridExtent 16777217 1 = some 16777216
      ∧ Executor.launchDimensions Scenario.blockSize Scenario.details Scenario.stages
        = some ({ x := 1, y := 1, z := 1 }, { x := 256, y := 1, z := 1 }) := by
  refine ⟨?_, ?_, ?_, ?_, ?_, ?_, ?_⟩ <;> decide

end fk
